import Mathlib

/-!
Shallow embedding of the resumable historic-data crawler, its crawl-state
ledger and the staleness-aware cloud cache of this repository, together
with theorems settling the specification claims.

Modelling conventions, used throughout:
* ISO-8601 timestamp strings are modelled as integers; on equal-format UTC
  ISO strings, lexicographic string order coincides with numeric time order.
  Crawl-state timestamps are in milliseconds; cache `cachedAt` stamps are in
  seconds (SQLite `datetime` has second resolution).
* SQLite rows become Lean lists of structures; `INSERT OR REPLACE` becomes
  delete-conflicting-rows-then-append; `SELECT ... ORDER BY created_at DESC`
  becomes filter-then-insertion-sort (descending by the item timestamp).
* The remote API is a script: a list of responses consumed one per remote
  call, each either `.ok page` or `.error msg` (a thrown exception).
* `stop()` / the inter-page delay are not modelled: the claims under proof
  concern uninterrupted runs.
-/

namespace RingCrawl

/-- Crawl phase of one entity, from `src/types/index.ts` (`CrawlPhase`). -/
inductive CrawlPhase
  | events
  | videos
  | device_history
deriving DecidableEq

/-- Status of one (entity, phase) crawl, from `src/types/index.ts` (`CrawlStatus`). -/
inductive CrawlStatus
  | idle
  | running
  | completed
  | error
  | paused
deriving DecidableEq

/-- Persisted crawl-state row, from `src/types/index.ts` (`CrawlState`). -/
structure CrawlState where
  entityId : String
  phase : CrawlPhase
  status : CrawlStatus
  paginationKey : Option String
  oldestFetchedAt : Option Int
  newestFetchedAt : Option Int
  totalFetched : Nat
  lastError : Option String
  updatedAt : Int
  startedAt : Option Int
  completedAt : Option Int
deriving DecidableEq

/-- `HistoricCrawler.makeInitialState` (historic crawler, part_007:487). -/
def makeInitialState (entityId : String) (phase : CrawlPhase) (now : Int) : CrawlState :=
  { entityId := entityId
    phase := phase
    status := .running
    paginationKey := none
    oldestFetchedAt := none
    newestFetchedAt := none
    totalFetched := 0
    lastError := none
    updatedAt := now
    startedAt := some now
    completedAt := none }

/-- Row update performed by `CrawlStore.markCompleted` (src/storage/crawl-store.ts:96)
on an existing row: status becomes `completed`, `completedAt` is stamped, all other
fields are preserved. -/
def markCompletedState (s : CrawlState) (now : Int) : CrawlState :=
  { s with status := .completed, completedAt := some now }

/-- Row update performed by `CrawlStore.markError` (src/storage/crawl-store.ts:108)
on an existing row: status becomes `error`, `lastError` is set, all other fields
are preserved. -/
def markErrorState (s : CrawlState) (msg : String) : CrawlState :=
  { s with status := .error, lastError := some msg }

/-- A cloud camera event, from `src/types/index.ts` (`CloudCameraEvent`).
`cvProperties` carries the JSON-serialised cv_properties blob. -/
structure CloudEvent where
  id : String
  dingIdStr : String
  deviceId : String
  deviceName : String
  locationId : String
  locationName : String
  kind : String
  createdAt : Int
  favorite : Bool
  recordingStatus : String
  state : String
  cvProperties : String
deriving DecidableEq

/-- One row of the `cloud_events` table: the event plus its `cached_at` stamp. -/
structure CloudEventRow where
  ev : CloudEvent
  cachedAt : Int
deriving DecidableEq

/-- `CloudCache.sqliteOffset`: maxAgeMs is floored to whole seconds
(`Math.floor(maxAgeMs / 1000)`). -/
def ageSeconds (maxAgeMs : Nat) : Int := ((maxAgeMs / 1000 : Nat) : Int)

/-- Freshness predicate of every cache read:
`cached_at >= datetime('now', '-N seconds')`. -/
def freshEventRow (now : Int) (maxAgeMs : Nat) (r : CloudEventRow) : Bool :=
  decide (now - ageSeconds maxAgeMs ≤ r.cachedAt)

/-- Filter argument of `CloudCache.getCachedEvents`. -/
structure EventCacheQuery where
  deviceId : Option String := none
  locationId : Option String := none
  kind : Option String := none
  limit : Option Nat := none

/-- JavaScript truthiness of an optional string (`if (query.deviceId)`):
true exactly for a present, non-empty string. -/
def strTruthy : Option String → Bool
  | some s => s != ""
  | none => false

/-- JavaScript truthiness of an optional number (`if (query.limit)`):
true exactly for a present, non-zero number. -/
def natTruthy : Option Nat → Bool
  | some n => n != 0
  | none => false

/-- One equality condition of the WHERE conjunction; it is added only when the
query field is truthy (src/storage/device-history-store.ts, CloudCache). -/
def matchField (q : Option String) (v : String) : Bool :=
  if strTruthy q then q.getD "" == v else true

/-- Full WHERE clause of `getCachedEvents`: freshness plus the conjunction of
the truthy filter fields. -/
def evRowMatches (q : EventCacheQuery) (now : Int) (maxAgeMs : Nat) (r : CloudEventRow) : Bool :=
  freshEventRow now maxAgeMs r
    && matchField q.deviceId r.ev.deviceId
    && matchField q.locationId r.ev.locationId
    && matchField q.kind r.ev.kind

/-- Insertion step of a descending sort by an integer key. -/
def insertDescBy (key : α → Int) (x : α) : List α → List α
  | [] => [x]
  | y :: ys => if key y ≤ key x then x :: y :: ys else y :: insertDescBy key x ys

/-- `ORDER BY created_at DESC` modelled as an insertion sort with descending key. -/
def sortDescBy (key : α → Int) : List α → List α
  | [] => []
  | x :: xs => insertDescBy key x (sortDescBy key xs)

/-- Row pipeline of `CloudCache.getCachedEvents`: filter by freshness and the
truthy query fields, order newest-first by `created_at`, apply LIMIT only when
truthy. -/
def cachedEventRows (q : EventCacheQuery) (now : Int) (maxAgeMs : Nat)
    (table : List CloudEventRow) : List CloudEventRow :=
  let rows := sortDescBy (fun r => r.ev.createdAt) (table.filter (evRowMatches q now maxAgeMs))
  if natTruthy q.limit then rows.take (q.limit.getD 0) else rows

/-- `CloudCache.getCachedEvents` (src device-history-store file, CloudCache
section): run the row pipeline and return null (`none`) when no row survives. -/
def getCachedEvents (q : EventCacheQuery) (now : Int) (maxAgeMs : Nat)
    (table : List CloudEventRow) : Option (List CloudEvent) :=
  let rows := cachedEventRows q now maxAgeMs table
  if rows.isEmpty then none else some (rows.map (fun r => r.ev))

/-- One `INSERT OR REPLACE` into `cloud_events`: rows conflicting on either
unique key (`id` PRIMARY KEY, `ding_id_str` UNIQUE) are replaced. -/
def upsertEventRow (now : Int) (table : List CloudEventRow) (e : CloudEvent) : List CloudEventRow :=
  (table.filter (fun r => r.ev.id != e.id && r.ev.dingIdStr != e.dingIdStr)) ++ [⟨e, now⟩]

/-- `CloudCache.cacheEvents`: batched idempotent upsert. -/
def cacheEvents (now : Int) (events : List CloudEvent) (table : List CloudEventRow) :
    List CloudEventRow :=
  events.foldl (upsertEventRow now) table

/-- A video search result, from `src/types/index.ts` (`CloudVideoResult`).
`duration` (REAL in the schema) is modelled as an integer; no claim computes
with it. -/
structure CloudVideo where
  dingId : String
  createdAt : Int
  kind : String
  state : String
  duration : Int
  favorite : Bool
  thumbnailUrl : Option String
  lqUrl : String
  hqUrl : Option String
  untranscodedUrl : String
  cvProperties : String
deriving DecidableEq

/-- One row of the `cloud_videos` table. -/
structure CloudVideoRow where
  vid : CloudVideo
  cachedAt : Int
deriving DecidableEq

/-- Freshness predicate of the video cache reads. -/
def freshVideoRow (now : Int) (maxAgeMs : Nat) (r : CloudVideoRow) : Bool :=
  decide (now - ageSeconds maxAgeMs ≤ r.cachedAt)

/-- One `INSERT OR REPLACE` into `cloud_videos` (PRIMARY KEY `ding_id`). -/
def upsertVideoRow (now : Int) (table : List CloudVideoRow) (v : CloudVideo) : List CloudVideoRow :=
  (table.filter (fun r => r.vid.dingId != v.dingId)) ++ [⟨v, now⟩]

/-- `CloudCache.cacheVideos`: batched idempotent upsert keyed by `dingId`. -/
def cacheVideos (now : Int) (videos : List CloudVideo) (table : List CloudVideoRow) :
    List CloudVideoRow :=
  videos.foldl (upsertVideoRow now) table

/-- `CloudCache.getCachedVideos`: freshness plus `created_at` within
[dateFrom, dateTo], newest first; the `deviceId` parameter is accepted but —
exactly as in the source SQL — not used in filtering. -/
def getCachedVideos (deviceId : String) (dateFrom dateTo : Int) (now : Int) (maxAgeMs : Nat)
    (table : List CloudVideoRow) : Option (List CloudVideo) :=
  let _ := deviceId
  let rows := sortDescBy (fun r => r.vid.createdAt)
    (table.filter (fun r => freshVideoRow now maxAgeMs r
      && decide (dateFrom ≤ r.vid.createdAt) && decide (r.vid.createdAt ≤ dateTo)))
  if rows.isEmpty then none else some (rows.map (fun r => r.vid))

/-- `CloudCache.pruneStale`, events half: `DELETE ... WHERE cached_at <
datetime('now', '-N seconds')`; the kept rows are exactly the fresh ones. -/
def pruneStaleEvents (now : Int) (maxAgeMs : Nat) (table : List CloudEventRow) :
    List CloudEventRow :=
  table.filter (freshEventRow now maxAgeMs)

/-- `CloudCache.pruneStale`, videos half. -/
def pruneStaleVideos (now : Int) (maxAgeMs : Nat) (table : List CloudVideoRow) :
    List CloudVideoRow :=
  table.filter (freshVideoRow now maxAgeMs)

/-- Arguments of `CloudHistory.getEvents` (src/events/cloud-history.ts:38). -/
structure CloudEventQueryArgs where
  deviceId : Option String := none
  locationId : Option String := none
  kind : Option String := none
  limit : Option Nat := none
  paginationKey : Option String := none

/-- Result shape of `CloudHistory.getEvents`, from `src/types/index.ts`
(`CloudEventQueryResult`). -/
structure CloudEventQueryResult where
  events : List CloudEvent
  paginationKey : Option String
  hasMore : Bool
deriving DecidableEq

/-- Cache probe performed at the top of `CloudHistory.getEvents`
(src/events/cloud-history.ts:40): consulted only when a cache is attached and
the query carries no truthy `paginationKey`. -/
def cachedAnswer (cache : Option (List CloudEventRow)) (maxAgeMs : Nat) (now : Int)
    (q : CloudEventQueryArgs) : Option (List CloudEvent) :=
  match cache with
  | none => none
  | some table =>
    if strTruthy q.paginationKey then none
    else getCachedEvents ⟨q.deviceId, q.locationId, q.kind, q.limit⟩ now maxAgeMs table

/-- Observable outcome of one `CloudHistory.getEvents` call: the returned (or
thrown) result, whether the remote fetch path was taken, and the cache table
afterwards. -/
structure GetEventsOutcome where
  result : Except String CloudEventQueryResult
  remoteCalled : Bool
  cacheAfter : Option (List CloudEventRow)

/-- `CloudHistory.getEvents` (src/events/cloud-history.ts:38): cache hit short
circuits with `paginationKey = null`, `hasMore = false` and no remote call;
otherwise the remote result is returned and, when non-empty, written through to
the cache. -/
def cloudHistoryGetEvents (cache : Option (List CloudEventRow)) (maxAgeMs : Nat) (now : Int)
    (q : CloudEventQueryArgs) (remote : Except String CloudEventQueryResult) : GetEventsOutcome :=
  match cachedAnswer cache maxAgeMs now q with
  | some hit => ⟨.ok ⟨hit, none, false⟩, false, cache⟩
  | none =>
    match remote with
    | .error msg => ⟨.error msg, true, cache⟩
    | .ok res =>
      let cacheAfter : Option (List CloudEventRow) :=
        match cache with
        | some table =>
          if res.events.length > 0 then some (cacheEvents now res.events table) else some table
        | none => none
      ⟨.ok res, true, cacheAfter⟩

/-- Terminal condition of a modelled crawl run. -/
inductive CrawlOutcome
  | completed
  | errored
  | skipped
  | scriptEnded
  | fuelExhausted
deriving DecidableEq

/-- Result of one events-phase run: terminal condition, the final ledger row,
the cursor passed to each `getEvents` call, every ledger write in order, and
the cache afterwards. -/
structure EventsRunResult where
  outcome : CrawlOutcome
  finalState : CrawlState
  fetches : List (Option String)
  writes : List CrawlState
  cacheAfter : Option (List CloudEventRow)

/-- Fold of `timestamps.reduce((a, b) => (a < b ? a : b))`. -/
def listMin : List Int → Option Int
  | [] => none
  | x :: xs => some (xs.foldl min x)

/-- Fold of `timestamps.reduce((a, b) => (a > b ? a : b))`. -/
def listMax : List Int → Option Int
  | [] => none
  | x :: xs => some (xs.foldl max x)

/-- Widening of `oldestFetchedAt` (part_007:235). -/
def mergeOldest (cur : Option Int) (candidate : Int) : Option Int :=
  match cur with
  | none => some candidate
  | some o => if candidate < o then some candidate else some o

/-- Widening of `newestFetchedAt` (part_007:238). -/
def mergeNewest (cur : Option Int) (candidate : Int) : Option Int :=
  match cur with
  | none => some candidate
  | some o => if o < candidate then some candidate else some o

/-- Ledger-row update for one non-empty events page (part_007:228-242):
accumulate the count, store the new cursor, widen the timestamp bounds. -/
def applyEventsPage (s : CrawlState) (res : CloudEventQueryResult) (now : Int) : CrawlState :=
  let ts := res.events.map (fun e => e.createdAt)
  { s with
    totalFetched := s.totalFetched + res.events.length
    paginationKey := res.paginationKey
    oldestFetchedAt :=
      match listMin ts with
      | none => s.oldestFetchedAt
      | some o => mergeOldest s.oldestFetchedAt o
    newestFetchedAt :=
      match listMax ts with
      | none => s.newestFetchedAt
      | some n => mergeNewest s.newestFetchedAt n
    updatedAt := now }

/-- Page loop of `HistoricCrawler.crawlEventsForDevice` (part_007:212-249),
running against `CloudHistory.getEvents`: a cache hit is served without
consuming the remote script (and, carrying `hasMore = false`, always ends the
loop); otherwise the next scripted remote response is consumed. -/
def crawlEventsGo (deviceId : String) (pageSize maxAgeMs : Nat) (now : Int) :
    List (Except String CloudEventQueryResult) → Option (List CloudEventRow) →
    CrawlState → Option String → EventsRunResult
  | script, cache, stored, cursor =>
    let q : CloudEventQueryArgs :=
      { deviceId := some deviceId, limit := some pageSize, paginationKey := cursor }
    match cachedAnswer cache maxAgeMs now q with
    | some hit =>
      if hit.length = 0 then
        ⟨.completed, markCompletedState stored now, [cursor], [markCompletedState stored now], cache⟩
      else
        let s1 := applyEventsPage stored ⟨hit, none, false⟩ now
        ⟨.completed, markCompletedState s1 now, [cursor], [s1, markCompletedState s1 now], cache⟩
    | none =>
      match script with
      | [] => ⟨.scriptEnded, stored, [cursor], [], cache⟩
      | .error msg :: _ =>
        ⟨.errored, markErrorState stored msg, [cursor], [markErrorState stored msg], cache⟩
      | .ok res :: rest =>
        let cache1 : Option (List CloudEventRow) :=
          match cache with
          | some table =>
            if res.events.length > 0 then some (cacheEvents now res.events table) else some table
          | none => none
        if res.events.length = 0 then
          ⟨.completed, markCompletedState stored now, [cursor], [markCompletedState stored now],
            cache1⟩
        else
          let s1 := applyEventsPage stored res now
          if res.hasMore then
            let r := crawlEventsGo deviceId pageSize maxAgeMs now rest cache1 s1 res.paginationKey
            ⟨r.outcome, r.finalState, cursor :: r.fetches, s1 :: r.writes, r.cacheAfter⟩
          else
            ⟨.completed, markCompletedState s1 now, [cursor], [s1, markCompletedState s1 now],
              cache1⟩

/-- `HistoricCrawler.crawlEventsForDevice` (part_007:197-259): a `completed`
row is skipped; an absent, `idle` or `error` row is re-initialised via
`makeInitialState`; a `paused` row is set back to `running`; a (stale)
`running` row is used as loaded. The loop then starts from the row's stored
cursor. -/
def crawlEventsForDevice (prior : Option CrawlState) (deviceId : String)
    (pageSize maxAgeMs : Nat) (now : Int)
    (script : List (Except String CloudEventQueryResult))
    (cache : Option (List CloudEventRow)) : EventsRunResult :=
  match prior with
  | some st =>
    if st.status = .completed then
      ⟨.skipped, st, [], [], cache⟩
    else if st.status = .idle ∨ st.status = .error then
      let s0 := makeInitialState deviceId .events now
      let r := crawlEventsGo deviceId pageSize maxAgeMs now script cache s0 s0.paginationKey
      ⟨r.outcome, r.finalState, r.fetches, s0 :: r.writes, r.cacheAfter⟩
    else if st.status = .paused then
      let s0 : CrawlState := { st with status := .running }
      let r := crawlEventsGo deviceId pageSize maxAgeMs now script cache s0 s0.paginationKey
      ⟨r.outcome, r.finalState, r.fetches, s0 :: r.writes, r.cacheAfter⟩
    else
      crawlEventsGo deviceId pageSize maxAgeMs now script cache st st.paginationKey
  | none =>
    let s0 := makeInitialState deviceId .events now
    let r := crawlEventsGo deviceId pageSize maxAgeMs now script cache s0 s0.paginationKey
    ⟨r.outcome, r.finalState, r.fetches, s0 :: r.writes, r.cacheAfter⟩

/-- Concrete camera event used by the scenario runs. -/
def mkEvent (id : String) (deviceId : String) (t : Int) : CloudEvent :=
  { id := id
    dingIdStr := id
    deviceId := deviceId
    deviceName := "Front Door"
    locationId := "loc1"
    locationName := "Home"
    kind := "motion"
    createdAt := t
    favorite := false
    recordingStatus := "ready"
    state := "timed_out"
    cvProperties := "" }

/-- Remote script of the end-to-end events scenario: page 1 has 2 items and
cursor c1 with more data, page 2 has 1 item and cursor c2 with more data,
page 3 has 1 item, a null cursor and no more data. -/
def scriptC3 : List (Except String CloudEventQueryResult) :=
  [ .ok ⟨[mkEvent "e1" "cam1" 100, mkEvent "e2" "cam1" 90], some "c1", true⟩,
    .ok ⟨[mkEvent "e3" "cam1" 80], some "c2", true⟩,
    .ok ⟨[mkEvent "e4" "cam1" 70], none, false⟩ ]

/-- The scenario run: no prior ledger row, an attached but empty cache. -/
def runC3 : EventsRunResult :=
  crawlEventsForDevice none "cam1" 50 1800000 1000 scriptC3 (some [])

/-- C3: with an empty cache, the three scripted pages (2 + 1 + 1 items, final
page with null cursor and hasMore = false) leave the events-phase ledger row
at status completed, totalFetched 4 and paginationKey null. -/
theorem events_scenario_final_ledger :
    runC3.outcome = CrawlOutcome.completed
      ∧ runC3.finalState.status = CrawlStatus.completed
      ∧ runC3.finalState.totalFetched = 4
      ∧ runC3.finalState.paginationKey = none := by
  decide

/-- An untyped device-history item: `body` stands for `JSON.stringify(event)`
(the dedup key), `ts` for the timestamp `extractTimestamp` recovers from it. -/
structure RawItem where
  body : String
  ts : Option Int
deriving DecidableEq

/-- `DeviceHistoryStore.insert` (src/storage/device-history-store.ts:50): each
item is skipped when a row with the same (location, body) pair already exists —
rows inserted earlier in the same batch included — and the count of newly
inserted items is returned. The store is modelled as its (location, body)
column pairs. -/
def dhInsert (locationId : String) (events : List RawItem) (store : List (String × String)) :
    List (String × String) × Nat :=
  events.foldl
    (fun acc e =>
      if (locationId, e.body) ∈ acc.1 then acc
      else (acc.1 ++ [(locationId, e.body)], acc.2 + 1))
    (store, 0)

/-- Per-camera body of `HistoricCrawler.runIncrementalCrawl` (part_007:414-430):
when the cursorless fetch returned events and a ledger row exists, the count is
added and `newestFetchedAt` widened; the written row (if any) is returned. -/
def incrementalEventsStep (prior : Option CrawlState) (result : CloudEventQueryResult)
    (now : Int) : Option CrawlState :=
  if result.events.length > 0 then
    match prior with
    | some st =>
      let newest := (result.events.head?.map (fun e => e.createdAt)).getD 0
      some { st with
        totalFetched := st.totalFetched + result.events.length
        newestFetchedAt := mergeNewest st.newestFetchedAt newest
        updatedAt := now }
    | none => none
  else none

/-- Per-location body of `HistoricCrawler.runIncrementalCrawl` (part_007:444-457):
a non-empty fetch is inserted into the device-history sink; the ledger row is
rewritten only when it exists and something was newly inserted. -/
def incrementalHistoryStep (prior : Option CrawlState) (locationId : String)
    (events : List RawItem) (store : List (String × String)) (now : Int) :
    Option CrawlState × List (String × String) :=
  if events.length > 0 then
    let res := dhInsert locationId events store
    match prior with
    | some st =>
      if res.2 > 0 then
        (some { st with totalFetched := st.totalFetched + res.2, updatedAt := now }, res.1)
      else (none, res.1)
    | none => (none, res.1)
  else (none, store)

/-- Projection lemma: marking completed preserves `totalFetched`. -/
theorem markCompletedState_totalFetched (s : CrawlState) (now : Int) :
    (markCompletedState s now).totalFetched = s.totalFetched := rfl

/-- Projection lemma: marking error preserves `totalFetched`. -/
theorem markErrorState_totalFetched (s : CrawlState) (msg : String) :
    (markErrorState s msg).totalFetched = s.totalFetched := rfl

/-- Projection lemma: a non-empty page adds its length to `totalFetched`. -/
theorem applyEventsPage_totalFetched (s : CrawlState) (res : CloudEventQueryResult) (now : Int) :
    (applyEventsPage s res now).totalFetched = s.totalFetched + res.events.length := rfl

/-- Every events-phase loop invocation records the cursor it was entered with
as its first `getEvents` call. -/
theorem crawlEventsGo_fetches_head (deviceId : String) (pageSize maxAgeMs : Nat) (now : Int)
    (script : List (Except String CloudEventQueryResult)) (cache : Option (List CloudEventRow))
    (stored : CrawlState) (cursor : Option String) :
    (crawlEventsGo deviceId pageSize maxAgeMs now script cache stored cursor).fetches.head? =
      some cursor := by
  rcases script with _ | ⟨_ | _, rest⟩ <;>
    · unfold crawlEventsGo
      dsimp only
      repeat' split
      all_goals rfl

/-- Ledger writes of the events-phase loop never decrease `totalFetched`: the
write trace is monotone and every write is at least the entry row's count. -/
theorem crawlEventsGo_writes_mono (deviceId : String) (pageSize maxAgeMs : Nat) (now : Int) :
    ∀ (script : List (Except String CloudEventQueryResult))
      (cache : Option (List CloudEventRow)) (stored : CrawlState) (cursor : Option String),
      List.Chain' (fun a b => a.totalFetched ≤ b.totalFetched)
          (crawlEventsGo deviceId pageSize maxAgeMs now script cache stored cursor).writes
        ∧ ∀ w ∈ (crawlEventsGo deviceId pageSize maxAgeMs now script cache stored cursor).writes,
            stored.totalFetched ≤ w.totalFetched := by
  intro script
  induction script with
  | nil =>
    intro cache stored cursor
    unfold crawlEventsGo
    dsimp only
    constructor
    · repeat' split
      all_goals simp [markCompletedState, applyEventsPage]
    · repeat' split
      all_goals intro w hw
      all_goals simp at hw
      all_goals first
        | (subst hw; simp [markCompletedState, applyEventsPage])
        | (rcases hw with hw | hw <;> subst hw <;> simp [markCompletedState, applyEventsPage])
  | cons head rest ih =>
    intro cache stored cursor
    rcases head with msg | res
    · unfold crawlEventsGo
      dsimp only
      constructor
      · repeat' split
        all_goals simp [markCompletedState, markErrorState, applyEventsPage]
      · repeat' split
        all_goals intro w hw
        all_goals simp at hw
        all_goals first
          | (subst hw; simp [markCompletedState, markErrorState, applyEventsPage])
          | (rcases hw with hw | hw <;> subst hw <;>
              simp [markCompletedState, markErrorState, applyEventsPage])
    · have ihc := fun cache1 => ih cache1 (applyEventsPage stored res now) res.paginationKey
      unfold crawlEventsGo
      dsimp only
      constructor
      · repeat' split
        all_goals try simp [markCompletedState, applyEventsPage]
        all_goals
          refine List.chain'_cons'.mpr ⟨?_, (ihc _).1⟩
        all_goals
          intro y hy
        all_goals
          exact (ihc _).2 y (List.mem_of_mem_head? hy)
      · repeat' split
        all_goals intro w hw
        all_goals simp at hw
        all_goals first
          | (subst hw; simp [markCompletedState, applyEventsPage])
          | (rcases hw with hw | hw <;> subst hw <;>
              simp [markCompletedState, applyEventsPage])
          | (rcases hw with hw | hw
             · subst hw; simp [applyEventsPage]
             · exact le_trans (by simp [applyEventsPage]) ((ihc _).2 w hw))

/-- Helper: prepending the loop's entry row keeps the write trace monotone. -/
theorem chain_cons_go (deviceId : String) (pageSize maxAgeMs : Nat) (now : Int)
    (script : List (Except String CloudEventQueryResult)) (cache : Option (List CloudEventRow))
    (s0 : CrawlState) (cursor : Option String) :
    List.Chain' (fun a b => a.totalFetched ≤ b.totalFetched)
      (s0 :: (crawlEventsGo deviceId pageSize maxAgeMs now script cache s0 cursor).writes) := by
  refine List.chain'_cons'.mpr
    ⟨?_, (crawlEventsGo_writes_mono deviceId pageSize maxAgeMs now script cache s0 cursor).1⟩
  intro y hy
  exact (crawlEventsGo_writes_mono deviceId pageSize maxAgeMs now script cache s0 cursor).2 y
    (List.mem_of_mem_head? hy)

/-- Ledger row after the error-preserving two-page run: the crawler committed
5 items and a good cursor before the failing fetch marked the row `error`. -/
def priorErrorRow : CrawlState :=
  { entityId := "cam1"
    phase := .events
    status := .error
    paginationKey := some "cgood"
    oldestFetchedAt := some 50
    newestFetchedAt := some 100
    totalFetched := 5
    lastError := some "API timeout"
    updatedAt := 0
    startedAt := some 0
    completedAt := none }

/-- Next crawl attempt over the `error` row, one-page remote script. -/
def runC1cex : EventsRunResult :=
  crawlEventsForDevice (some priorErrorRow) "cam1" 50 1800000 2000
    [.ok ⟨[mkEvent "e9" "cam1" 60], none, false⟩] none

/-- C1 counterexample: the ledger row for the entity has status `error`,
pagination key "cgood" and totalFetched 5; the next crawl attempt issues its
first remote fetch with NO cursor (not "cgood") and finishes with
totalFetched 1 (not 5 + 1 = 6): `makeInitialState` discarded the progress. -/
theorem events_error_row_not_resumed_cex :
    runC1cex.fetches = [none]
      ∧ runC1cex.finalState.totalFetched = 1
      ∧ runC1cex.fetches ≠ [some "cgood"]
      ∧ runC1cex.finalState.totalFetched ≠ 6 := by
  decide

/-- Next crawl attempt over the `error` row whose first remote page is empty. -/
def runC2cex : EventsRunResult :=
  crawlEventsForDevice (some priorErrorRow) "cam1" 50 1800000 2000
    [.ok ⟨[], none, false⟩] none

/-- C2 counterexample: the row previously held totalFetched 5, yet the very
first upsert of the next crawl attempt (the `makeInitialState` re-init) stores
totalFetched 0 — a decreasing ledger write issued by the crawler itself. -/
theorem crawler_upsert_decreases_totalFetched_cex :
    priorErrorRow.totalFetched = 5
      ∧ (runC2cex.writes.map (fun w => w.totalFetched)).head? = some 0 := by
  decide

/-- C1 amended: a `paused` row is resumed — the first fetch uses the stored
cursor and every subsequent ledger write keeps at least the stored count —
while an `error` row is re-initialised: the first fetch carries no cursor and
the first ledger write restarts the count at zero. -/
theorem events_resume_amended (prior : CrawlState) (deviceId : String)
    (pageSize maxAgeMs : Nat) (now : Int)
    (script : List (Except String CloudEventQueryResult))
    (cache : Option (List CloudEventRow)) :
    (prior.status = CrawlStatus.paused →
        (crawlEventsForDevice (some prior) deviceId pageSize maxAgeMs now script
              cache).fetches.head? = some prior.paginationKey
          ∧ (crawlEventsForDevice (some prior) deviceId pageSize maxAgeMs now script
              cache).writes.all (fun w => decide (prior.totalFetched ≤ w.totalFetched)) = true)
      ∧ (prior.status = CrawlStatus.error →
        (crawlEventsForDevice (some prior) deviceId pageSize maxAgeMs now script
              cache).fetches.head? = some none
          ∧ ((crawlEventsForDevice (some prior) deviceId pageSize maxAgeMs now script
              cache).writes.map (fun w => w.totalFetched)).head? = some 0) := by
  constructor
  · intro hp
    have hrun : crawlEventsForDevice (some prior) deviceId pageSize maxAgeMs now script cache =
        (let s0 : CrawlState := { prior with status := .running }
         let r := crawlEventsGo deviceId pageSize maxAgeMs now script cache s0 s0.paginationKey
         ⟨r.outcome, r.finalState, r.fetches, s0 :: r.writes, r.cacheAfter⟩) := by
      simp [crawlEventsForDevice, hp]
    rw [hrun]
    constructor
    · exact crawlEventsGo_fetches_head deviceId pageSize maxAgeMs now script cache _ _
    · rw [List.all_eq_true]
      intro w hw
      rw [decide_eq_true_eq]
      rcases List.mem_cons.mp hw with h | h
      · subst h; rfl
      · exact (crawlEventsGo_writes_mono deviceId pageSize maxAgeMs now script cache
          { prior with status := .running } _).2 w h
  · intro hp
    have hrun : crawlEventsForDevice (some prior) deviceId pageSize maxAgeMs now script cache =
        (let s0 := makeInitialState deviceId .events now
         let r := crawlEventsGo deviceId pageSize maxAgeMs now script cache s0 s0.paginationKey
         ⟨r.outcome, r.finalState, r.fetches, s0 :: r.writes, r.cacheAfter⟩) := by
      simp [crawlEventsForDevice, hp]
    rw [hrun]
    constructor
    · exact crawlEventsGo_fetches_head deviceId pageSize maxAgeMs now script cache _ _
    · rfl

/-- Paused ledger row used to exercise the amended resume theorem. -/
def priorPausedRow : CrawlState :=
  { entityId := "cam1"
    phase := .events
    status := .paused
    paginationKey := some "saved-cursor"
    oldestFetchedAt := some 10
    newestFetchedAt := some 20
    totalFetched := 5
    lastError := none
    updatedAt := 0
    startedAt := some 0
    completedAt := none }

/-- Resumed run over the paused row. -/
def runC1paused : EventsRunResult :=
  crawlEventsForDevice (some priorPausedRow) "cam1" 50 1800000 3000
    [.ok ⟨[mkEvent "e9" "cam1" 60], none, false⟩] none

/-- Witness for the amended resume theorem at a concrete paused row and a
concrete error row. -/
theorem events_resume_amended_witness :
    (runC1paused.fetches.head? = some (some "saved-cursor")
        ∧ runC1paused.writes.all (fun w => decide (5 ≤ w.totalFetched)) = true)
      ∧ (runC1cex.fetches.head? = some none
        ∧ (runC1cex.writes.map (fun w => w.totalFetched)).head? = some 0) := by
  constructor
  · exact (events_resume_amended priorPausedRow "cam1" 50 1800000 3000
      [.ok ⟨[mkEvent "e9" "cam1" 60], none, false⟩] none).1 (by decide)
  · exact (events_resume_amended priorErrorRow "cam1" 50 1800000 2000
      [.ok ⟨[mkEvent "e9" "cam1" 60], none, false⟩] none).2 (by decide)

/-- Cursorless incremental fetch result used by the monotonicity witness. -/
def resIncW : CloudEventQueryResult := ⟨[mkEvent "e10" "cam1" 60], none, false⟩

/-- Row the incremental events step writes for `priorPausedRow` and `resIncW`. -/
def wIncEv : CrawlState :=
  { priorPausedRow with totalFetched := 6, newestFetchedAt := some 60, updatedAt := 1000 }

/-- Row the incremental device-history step writes for one new raw item. -/
def wIncDh : CrawlState :=
  { priorPausedRow with totalFetched := 6, updatedAt := 1000 }

/-- Result of one device-history-phase run: terminal condition, final ledger
row, ledger writes, the sink store afterwards, and the per-page counts the
sink reported as newly inserted. -/
structure DHRunResult where
  outcome : CrawlOutcome
  finalState : CrawlState
  writes : List CrawlState
  storeAfter : List (String × String)
  insertedCounts : List Nat

/-- Per-item widening of both timestamp bounds (part_007:362-372); items
without an extractable timestamp are skipped. -/
def mergeBoundsItem (b : Option Int × Option Int) (e : RawItem) : Option Int × Option Int :=
  match e.ts with
  | some t => (mergeOldest b.1 t, mergeNewest b.2 t)
  | none => b

/-- Ledger-row update for one non-empty device-history page (part_007:358-376):
the sink-reported count is added to `totalFetched`, bounds are widened per item,
and the pagination key becomes the stringified advanced offset. -/
def applyDhPage (s : CrawlState) (events : List RawItem) (inserted offsetAfter : Nat)
    (now : Int) : CrawlState :=
  let b := events.foldl mergeBoundsItem (s.oldestFetchedAt, s.newestFetchedAt)
  { s with
    totalFetched := s.totalFetched + inserted
    oldestFetchedAt := b.1
    newestFetchedAt := b.2
    paginationKey := some (Nat.repr offsetAfter)
    updatedAt := now }

/-- Page loop of `HistoricCrawler.crawlDeviceHistoryForLocation`
(part_007:342-383): an empty page ends the phase `completed` without touching
the row; a non-empty page is inserted into the sink, the row updated and
upserted; a short page (fetched < requested) ends the phase `completed`. -/
def crawlDhGo (locationId : String) (pageSize : Nat) (now : Int) :
    List (Except String (List RawItem)) → List (String × String) → CrawlState → Nat →
    DHRunResult
  | [], store, stored, _ => ⟨.scriptEnded, stored, [], store, []⟩
  | .error msg :: _, store, stored, _ =>
    ⟨.errored, markErrorState stored msg, [markErrorState stored msg], store, []⟩
  | .ok events :: rest, store, stored, offset =>
    if events.length = 0 then
      ⟨.completed, markCompletedState stored now, [markCompletedState stored now], store, []⟩
    else
      let ins := dhInsert locationId events store
      let s1 := applyDhPage stored events ins.2 (offset + events.length) now
      if events.length < pageSize then
        ⟨.completed, markCompletedState s1 now, [s1, markCompletedState s1 now], ins.1, [ins.2]⟩
      else
        let r := crawlDhGo locationId pageSize now rest ins.1 s1 (offset + events.length)
        ⟨r.outcome, r.finalState, s1 :: r.writes, r.storeAfter, ins.2 :: r.insertedCounts⟩

/-- Resume-offset parse of `parseInt(state.paginationKey, 10)` (part_007:338),
for the decimal keys this phase writes; an absent key yields offset 0. -/
def parseOffset : Option String → Nat
  | some s => (s.toNat?).getD 0
  | none => 0

/-- `HistoricCrawler.crawlDeviceHistoryForLocation` (part_007:325-393), with
the same status-dependent entry handling as the events phase. -/
def crawlDeviceHistoryForLocation (prior : Option CrawlState) (locationId : String)
    (pageSize : Nat) (now : Int) (script : List (Except String (List RawItem)))
    (store : List (String × String)) : DHRunResult :=
  match prior with
  | some st =>
    if st.status = .completed then ⟨.skipped, st, [], store, []⟩
    else if st.status = .idle ∨ st.status = .error then
      let s0 := makeInitialState locationId .device_history now
      let r := crawlDhGo locationId pageSize now script store s0 (parseOffset s0.paginationKey)
      ⟨r.outcome, r.finalState, s0 :: r.writes, r.storeAfter, r.insertedCounts⟩
    else if st.status = .paused then
      let s0 : CrawlState := { st with status := .running }
      let r := crawlDhGo locationId pageSize now script store s0 (parseOffset s0.paginationKey)
      ⟨r.outcome, r.finalState, s0 :: r.writes, r.storeAfter, r.insertedCounts⟩
    else
      crawlDhGo locationId pageSize now script store st (parseOffset st.paginationKey)
  | none =>
    let s0 := makeInitialState locationId .device_history now
    let r := crawlDhGo locationId pageSize now script store s0 (parseOffset s0.paginationKey)
    ⟨r.outcome, r.finalState, s0 :: r.writes, r.storeAfter, r.insertedCounts⟩

/-- Length of the last page of a script (0 for an empty script). -/
def lastLen : List (List RawItem) → Nat
  | [] => 0
  | [p] => p.length
  | _ :: rest => lastLen rest

/-- Checks that every page except the last has exactly the requested size. -/
def fullButLast (pageSize : Nat) : List (List RawItem) → Bool
  | [] => true
  | [_] => true
  | p :: rest => p.length == pageSize && fullButLast pageSize rest

/-- Device-history run with a single, empty remote page and no prior row. -/
def runC4cex : DHRunResult :=
  crawlDeviceHistoryForLocation none "loc1" 2 1000 [.ok []] []

/-- C4 counterexample: with pages of size P = 2 whose (only and) last page has
size 0 < P, the phase does reach completed, but `paginationKey` is null — not
the stringified cumulative raw count "0" the claim requires. -/
theorem dh_empty_first_page_pk_cex :
    runC4cex.outcome = CrawlOutcome.completed
      ∧ runC4cex.finalState.status = CrawlStatus.completed
      ∧ runC4cex.finalState.paginationKey = none
      ∧ runC4cex.finalState.paginationKey ≠ some "0" := by
  decide

/-- Unfolding equation for one full (not short, non-empty) device-history page
followed by an opaque remainder script. -/
theorem crawlDhGo_cons_full (locationId : String) (pageSize : Nat) (now : Int)
    (events : List RawItem) (rest : List (Except String (List RawItem)))
    (store : List (String × String)) (stored : CrawlState) (offset : Nat)
    (hp0 : ¬ events.length = 0) (hns : ¬ events.length < pageSize) :
    crawlDhGo locationId pageSize now (Except.ok events :: rest) store stored offset =
      (let ins := dhInsert locationId events store
       let s1 := applyDhPage stored events ins.2 (offset + events.length) now
       let r := crawlDhGo locationId pageSize now rest ins.1 s1 (offset + events.length)
       ⟨r.outcome, r.finalState, s1 :: r.writes, r.storeAfter, ins.2 :: r.insertedCounts⟩) := by
  simp [crawlDhGo, hp0, hns]

/-- Loop invariant for the device-history page loop on an error-free script
whose non-final pages are full and whose final page is short: the run
completes; the final pagination key is the stringified total advanced offset
when any page was non-empty, and the entry row's key otherwise; and
`totalFetched` grows by exactly the sum of the sink-reported insert counts. -/
theorem crawlDhGo_complete (locationId : String) (pageSize : Nat) (now : Int) :
    ∀ (pages : List (List RawItem)) (store : List (String × String)) (stored : CrawlState)
      (offset : Nat),
      pages ≠ [] →
      fullButLast pageSize pages = true →
      lastLen pages < pageSize →
      (crawlDhGo locationId pageSize now (pages.map Except.ok) store stored offset).outcome
          = CrawlOutcome.completed
        ∧ (crawlDhGo locationId pageSize now (pages.map Except.ok) store stored
            offset).finalState.status = CrawlStatus.completed
        ∧ (crawlDhGo locationId pageSize now (pages.map Except.ok) store stored
            offset).finalState.paginationKey =
          (if 0 < (pages.map List.length).sum then
            some (Nat.repr (offset + (pages.map List.length).sum))
          else stored.paginationKey)
        ∧ (crawlDhGo locationId pageSize now (pages.map Except.ok) store stored
            offset).finalState.totalFetched =
          stored.totalFetched + (crawlDhGo locationId pageSize now (pages.map Except.ok)
            store stored offset).insertedCounts.sum := by
  intro pages
  induction pages with
  | nil => intro _ _ _ h; exact absurd rfl h
  | cons p rest ih =>
    intro store stored offset _ hfull hlast
    rcases rest with _ | ⟨q, rest2⟩
    · by_cases hp : p.length = 0
      · have hpnil : p = [] := List.length_eq_zero.mp hp
        subst hpnil
        simp [crawlDhGo, markCompletedState, lastLen]
      · have hshort : p.length < pageSize := by simpa [lastLen] using hlast
        simp [crawlDhGo, hp, hshort, markCompletedState, applyDhPage, Nat.pos_of_ne_zero hp]
    · have hfull1 : p.length = pageSize := by
        have := hfull
        simp [fullButLast] at this
        exact this.1
      have hfull2 : fullButLast pageSize (q :: rest2) = true := by
        have := hfull
        simp [fullButLast] at this
        exact this.2
      have hlast2 : lastLen (q :: rest2) < pageSize := by
        simpa [lastLen] using hlast
      have hpagePos : 0 < pageSize := lt_of_le_of_lt (Nat.zero_le _) hlast2
      have hp0 : ¬ p.length = 0 := by omega
      have hnotShort : ¬ p.length < pageSize := by omega
      have step := crawlDhGo_cons_full locationId pageSize now p
        (List.map Except.ok (q :: rest2)) store stored offset hp0 hnotShort
      have IH := ih (dhInsert locationId p store).1
        (applyDhPage stored p (dhInsert locationId p store).2 (offset + p.length) now)
        (offset + p.length) (by simp) hfull2 hlast2
      rw [List.map_cons, step]
      dsimp only
      refine ⟨IH.1, IH.2.1, ?_, ?_⟩
      · rw [IH.2.2.1]
        have hsumPos : 0 < (List.map List.length (p :: q :: rest2)).sum := by
          simp [hfull1]
          omega
        rw [if_pos hsumPos]
        by_cases hsum2 : 0 < ((q :: rest2).map List.length).sum
        · rw [if_pos hsum2]
          have harith : offset + p.length + ((q :: rest2).map List.length).sum =
              offset + (List.map List.length (p :: q :: rest2)).sum := by
            simp
            omega
          rw [harith]
        · rw [if_neg hsum2]
          have hz : ((q :: rest2).map List.length).sum = 0 := by omega
          have hsumAll : (List.map List.length (p :: q :: rest2)).sum = p.length := by
            simp only [List.map_cons, List.sum_cons] at hz ⊢
            omega
          rw [hsumAll]
          simp [applyDhPage]
      · rw [IH.2.2.2]
        simp [applyDhPage]
        omega

/-- C4 amended: for an error-free device-history crawl from a fresh row, over
pages of size P whose last page is short, with at least one item fetched in
total, the phase completes with `paginationKey` the stringified cumulative raw
item count and `totalFetched` exactly the sum of the sink-reported
newly-inserted counts. -/
theorem dh_offset_key_vs_inserted_amended (locationId : String) (pageSize : Nat) (now : Int)
    (pages : List (List RawItem)) (store : List (String × String))
    (hne : pages ≠ [])
    (hfull : fullButLast pageSize pages = true)
    (hlast : lastLen pages < pageSize)
    (hsum : 0 < (pages.map List.length).sum) :
    (crawlDeviceHistoryForLocation none locationId pageSize now (pages.map Except.ok)
        store).outcome = CrawlOutcome.completed
      ∧ (crawlDeviceHistoryForLocation none locationId pageSize now (pages.map Except.ok)
          store).finalState.status = CrawlStatus.completed
      ∧ (crawlDeviceHistoryForLocation none locationId pageSize now (pages.map Except.ok)
          store).finalState.paginationKey = some (Nat.repr ((pages.map List.length).sum))
      ∧ (crawlDeviceHistoryForLocation none locationId pageSize now (pages.map Except.ok)
          store).finalState.totalFetched =
        (crawlDeviceHistoryForLocation none locationId pageSize now (pages.map Except.ok)
          store).insertedCounts.sum := by
  have H := crawlDhGo_complete locationId pageSize now pages store
    (makeInitialState locationId .device_history now) 0 hne hfull hlast
  simp only [crawlDeviceHistoryForLocation, parseOffset, makeInitialState]
  refine ⟨H.1, H.2.1, ?_, ?_⟩
  · have := H.2.2.1
    rw [if_pos hsum] at this
    simpa [makeInitialState] using this
  · have := H.2.2.2
    simpa [makeInitialState] using this

/-- Concrete pages for the device-history witness: two full pages of size 2
would not fit a short last page, so use P = 2 with one full page and one short
page whose item repeats a body from page one (deduplicated by the sink). -/
def pagesC4w : List (List RawItem) :=
  [[⟨"bodyX", some 10⟩, ⟨"bodyY", some 20⟩], [⟨"bodyX", some 10⟩]]

/-- The witness run for the amended device-history theorem. -/
def runC4w : DHRunResult :=
  crawlDeviceHistoryForLocation none "loc1" 2 1000 (pagesC4w.map Except.ok) []

/-- Witness: 3 raw items are fetched but only 2 are newly inserted (the third
is a content-equal duplicate), so the final key is "3" while totalFetched is
2 — the two counts differ, as the claim allows. -/
theorem dh_offset_key_vs_inserted_amended_witness :
    runC4w.outcome = CrawlOutcome.completed
      ∧ runC4w.finalState.status = CrawlStatus.completed
      ∧ runC4w.finalState.paginationKey = some (Nat.repr ((pagesC4w.map List.length).sum))
      ∧ runC4w.finalState.totalFetched = runC4w.insertedCounts.sum
      ∧ runC4w.finalState.totalFetched = 2
      ∧ (pagesC4w.map List.length).sum = 3 := by
  refine ⟨?_, ?_, ?_, ?_, by decide, by decide⟩
  · exact (dh_offset_key_vs_inserted_amended "loc1" 2 1000 pagesC4w [] (by decide) (by decide)
      (by decide) (by decide)).1
  · exact (dh_offset_key_vs_inserted_amended "loc1" 2 1000 pagesC4w [] (by decide) (by decide)
      (by decide) (by decide)).2.1
  · exact (dh_offset_key_vs_inserted_amended "loc1" 2 1000 pagesC4w [] (by decide) (by decide)
      (by decide) (by decide)).2.2.1
  · exact (dh_offset_key_vs_inserted_amended "loc1" 2 1000 pagesC4w [] (by decide) (by decide)
      (by decide) (by decide)).2.2.2

/-- Membership is preserved by the descending insertion step. -/
theorem insertDescBy_mem (key : α → Int) (x : α) (l : List α) (a : α) :
    a ∈ insertDescBy key x l ↔ a = x ∨ a ∈ l := by
  induction l with
  | nil => simp [insertDescBy]
  | cons y ys ih =>
    simp only [insertDescBy]
    split
    · simp [List.mem_cons]
    · simp only [List.mem_cons, ih]
      tauto

/-- The descending insertion step never produces the empty list. -/
theorem insertDescBy_ne_nil (key : α → Int) (x : α) (l : List α) :
    insertDescBy key x l ≠ [] := by
  cases l with
  | nil => simp [insertDescBy]
  | cons y ys =>
    simp only [insertDescBy]
    split <;> simp

/-- The descending insertion step preserves descending sortedness. -/
theorem insertDescBy_pairwise (key : α → Int) (x : α) (l : List α)
    (h : List.Pairwise (fun a b => key b ≤ key a) l) :
    List.Pairwise (fun a b => key b ≤ key a) (insertDescBy key x l) := by
  induction l with
  | nil => simp [insertDescBy]
  | cons y ys ih =>
    rcases List.pairwise_cons.mp h with ⟨hy, hys⟩
    simp only [insertDescBy]
    split
    · rename_i hle
      refine List.Pairwise.cons ?_ (List.Pairwise.cons hy hys)
      intro b hb
      rcases List.mem_cons.mp hb with rfl | hb
      · exact hle
      · exact le_trans (hy b hb) hle
    · rename_i hgt
      refine List.Pairwise.cons ?_ (ih hys)
      intro b hb
      rcases (insertDescBy_mem key x ys b).mp hb with rfl | hb
      · exact le_of_lt (lt_of_not_le hgt)
      · exact hy b hb

/-- Descending insertion sort yields a newest-first (descending-key) list. -/
theorem sortDescBy_pairwise (key : α → Int) (l : List α) :
    List.Pairwise (fun a b => key b ≤ key a) (sortDescBy key l) := by
  induction l with
  | nil => simp [sortDescBy]
  | cons x xs ih => exact insertDescBy_pairwise key x _ ih

/-- Membership is preserved by the descending sort. -/
theorem sortDescBy_mem (key : α → Int) (l : List α) (a : α) :
    a ∈ sortDescBy key l ↔ a ∈ l := by
  induction l with
  | nil => simp [sortDescBy]
  | cons x xs ih =>
    simp only [sortDescBy, insertDescBy_mem, List.mem_cons, ih]

/-- The descending sort is empty only on the empty list. -/
theorem sortDescBy_eq_nil (key : α → Int) (l : List α) :
    sortDescBy key l = [] ↔ l = [] := by
  cases l with
  | nil => simp [sortDescBy]
  | cons x xs =>
    simp only [sortDescBy]
    constructor
    · intro h; exact absurd h (insertDescBy_ne_nil key x _)
    · intro h; exact absurd h (by simp)

/-- The empty events-cache query (no filters, no limit). -/
def emptyEvQuery : EventCacheQuery := ⟨none, none, none, none⟩

/-- C5 counterexample: an entry cached at T = 0 with maxAge 10 seconds is still
returned as a HIT by a read at exactly now = T + maxAge = 10, where the claim
requires a miss for every read at time ≥ T + maxAge (the source predicate
`cached_at >= datetime('now', '-N seconds')` is inclusive). -/
theorem cache_hit_at_exact_boundary_cex :
    getCachedEvents emptyEvQuery 10 10000 [⟨mkEvent "e1" "cam1" 5, 0⟩]
        = some [mkEvent "e1" "cam1" 5]
      ∧ ageSeconds 10000 = 10
      ∧ (10 : Int) ≥ 0 + ageSeconds 10000 := by
  decide

/-- C5 amended: an entry written at T is a hit for every read at
now ≤ T + maxAge and a miss for every read at now > T + maxAge (the boundary
read is a hit, not a miss), for both the event and the video cache; and
pruneStale keeps exactly the rows with cachedAt ≥ now − maxAge, deleting
exactly the older ones. -/
theorem cache_staleness_boundary_amended (e : CloudEvent) (v : CloudVideo)
    (T now dateFrom dateTo : Int) (maxAgeMs : Nat) (deviceId : String)
    (etable : List CloudEventRow) (vtable : List CloudVideoRow)
    (hvFrom : dateFrom ≤ v.createdAt) (hvTo : v.createdAt ≤ dateTo) :
    (now ≤ T + ageSeconds maxAgeMs →
        getCachedEvents emptyEvQuery now maxAgeMs [⟨e, T⟩] = some [e])
      ∧ (T + ageSeconds maxAgeMs < now →
        getCachedEvents emptyEvQuery now maxAgeMs [⟨e, T⟩] = none)
      ∧ (now ≤ T + ageSeconds maxAgeMs →
        getCachedVideos deviceId dateFrom dateTo now maxAgeMs [⟨v, T⟩] = some [v])
      ∧ (T + ageSeconds maxAgeMs < now →
        getCachedVideos deviceId dateFrom dateTo now maxAgeMs [⟨v, T⟩] = none)
      ∧ (∀ r, r ∈ pruneStaleEvents now maxAgeMs etable ↔
          r ∈ etable ∧ now - ageSeconds maxAgeMs ≤ r.cachedAt)
      ∧ (∀ r, r ∈ pruneStaleVideos now maxAgeMs vtable ↔
          r ∈ vtable ∧ now - ageSeconds maxAgeMs ≤ r.cachedAt) := by
  refine ⟨?_, ?_, ?_, ?_, ?_, ?_⟩
  · intro h
    have hf : freshEventRow now maxAgeMs ⟨e, T⟩ = true := by
      simp only [freshEventRow, decide_eq_true_eq]
      omega
    have hm : evRowMatches ⟨none, none, none, none⟩ now maxAgeMs ⟨e, T⟩ = true := by
      simp [evRowMatches, matchField, strTruthy, hf]
    simp [getCachedEvents, cachedEventRows, hm, sortDescBy, insertDescBy, natTruthy, emptyEvQuery]
  · intro h
    have hf : freshEventRow now maxAgeMs ⟨e, T⟩ = false := by
      simp only [freshEventRow, decide_eq_false_iff_not]
      omega
    have hm : evRowMatches ⟨none, none, none, none⟩ now maxAgeMs ⟨e, T⟩ = false := by
      simp [evRowMatches, hf]
    simp [getCachedEvents, cachedEventRows, hm, sortDescBy, natTruthy, emptyEvQuery]
  · intro h
    have hf : freshVideoRow now maxAgeMs ⟨v, T⟩ = true := by
      simp only [freshVideoRow, decide_eq_true_eq]
      omega
    simp [getCachedVideos, hf, hvFrom, hvTo, sortDescBy, insertDescBy]
  · intro h
    have hf : freshVideoRow now maxAgeMs ⟨v, T⟩ = false := by
      simp only [freshVideoRow, decide_eq_false_iff_not]
      omega
    simp [getCachedVideos, hf, sortDescBy]
  · intro r
    simp [pruneStaleEvents, List.mem_filter, freshEventRow]
  · intro r
    simp [pruneStaleVideos, List.mem_filter, freshVideoRow]

/-- Concrete video used by the cache witnesses. -/
def mkVideoW : CloudVideo :=
  { dingId := "v1"
    createdAt := 500
    kind := "motion"
    state := "done"
    duration := 30
    favorite := false
    thumbnailUrl := none
    lqUrl := "lq"
    hqUrl := none
    untranscodedUrl := "u"
    cvProperties := "" }

/-- Witness for the amended staleness-boundary theorem at concrete values:
maxAge 10 s, entry cached at T = 0, hit read at now = 7, miss read at now = 11,
prune keeping the fresh row and dropping the stale one. -/
theorem cache_staleness_boundary_amended_witness :
    getCachedEvents emptyEvQuery 7 10000 [⟨mkEvent "e1" "cam1" 5, 0⟩]
        = some [mkEvent "e1" "cam1" 5]
      ∧ getCachedEvents emptyEvQuery 11 10000 [⟨mkEvent "e1" "cam1" 5, 0⟩] = none
      ∧ (⟨mkEvent "e1" "cam1" 5, 6⟩ ∈ pruneStaleEvents 11 10000
            [⟨mkEvent "e1" "cam1" 5, 6⟩]
          ↔ (⟨mkEvent "e1" "cam1" 5, 6⟩ ∈ [(⟨mkEvent "e1" "cam1" 5, 6⟩ : CloudEventRow)]
            ∧ (11 : Int) - ageSeconds 10000 ≤ 6)) := by
  have H1 := cache_staleness_boundary_amended (mkEvent "e1" "cam1" 5)
    (mkVideoW) 0 7 0 1000 10000 "cam1" [] [] (by decide) (by decide)
  have H2 := cache_staleness_boundary_amended (mkEvent "e1" "cam1" 5)
    (mkVideoW) 0 11 0 1000 10000 "cam1" [⟨mkEvent "e1" "cam1" 5, 6⟩] [] (by decide) (by decide)
  exact ⟨H1.1 (by decide), H2.2.1 (by decide), H2.2.2.2.2.1 ⟨mkEvent "e1" "cam1" 5, 6⟩⟩

/-- After a single-event upsert batch, the rows carrying that event's id are
exactly the one just-written row, whatever the prior table contents. -/
theorem cacheEvents_rows_for_id (now : Int) (e : CloudEvent) (table : List CloudEventRow) :
    (cacheEvents now [e] table).filter (fun r => r.ev.id == e.id) = [⟨e, now⟩] := by
  simp only [cacheEvents, List.foldl_cons, List.foldl_nil, upsertEventRow]
  rw [List.filter_append, List.filter_filter]
  have h1 : (table.filter
      (fun r => (r.ev.id == e.id) && (r.ev.id != e.id && r.ev.dingIdStr != e.dingIdStr))) = [] := by
    apply List.filter_eq_nil_iff.mpr
    intro a _
    by_cases h : a.ev.id = e.id <;> simp [h]
  rw [h1]
  simp

/-- Video analogue: the rows carrying a dingId after its upsert are exactly
the just-written row. -/
theorem cacheVideos_rows_for_id (now : Int) (v : CloudVideo) (table : List CloudVideoRow) :
    (cacheVideos now [v] table).filter (fun r => r.vid.dingId == v.dingId) = [⟨v, now⟩] := by
  simp only [cacheVideos, List.foldl_cons, List.foldl_nil, upsertVideoRow]
  rw [List.filter_append, List.filter_filter]
  have h1 : (table.filter
      (fun r => (r.vid.dingId == v.dingId) && (r.vid.dingId != v.dingId))) = [] := by
    apply List.filter_eq_nil_iff.mpr
    intro a _
    by_cases h : a.vid.dingId = v.dingId <;> simp [h]
  rw [h1]
  simp

/-- C6: caching the same event id twice leaves exactly one row for that id,
holding the most recent field values; a subsequent fresh read returns the new
values (the old row is gone); and the video cache behaves the same keyed by
dingId. -/
theorem cache_upsert_most_recent_wins (now1 now2 readNow : Int) (maxAgeMs : Nat)
    (e1 e2 : CloudEvent) (v1 v2 : CloudVideo)
    (etable : List CloudEventRow) (vtable : List CloudVideoRow)
    (hid : e1.id = e2.id) (hvid : v1.dingId = v2.dingId)
    (hfresh : readNow - ageSeconds maxAgeMs ≤ now2) :
    ((cacheEvents now2 [e2] (cacheEvents now1 [e1] etable)).filter
        (fun r => r.ev.id == e2.id) = [⟨e2, now2⟩])
      ∧ (∀ l, getCachedEvents emptyEvQuery readNow maxAgeMs
            (cacheEvents now2 [e2] (cacheEvents now1 [e1] etable)) = some l →
          e2 ∈ l ∧ l.all (fun x => x.id != e2.id || x == e2) = true)
      ∧ ((cacheVideos now2 [v2] (cacheVideos now1 [v1] vtable)).filter
          (fun r => r.vid.dingId == v2.dingId) = [⟨v2, now2⟩]) := by
  have hone := cacheEvents_rows_for_id now2 e2 (cacheEvents now1 [e1] etable)
  refine ⟨hone, ?_, cacheVideos_rows_for_id now2 v2 (cacheVideos now1 [v1] vtable)⟩
  intro l hl
  have hmatch : evRowMatches ⟨none, none, none, none⟩ readNow maxAgeMs ⟨e2, now2⟩ = true := by
    simp [evRowMatches, matchField, strTruthy, freshEventRow]
    omega
  have htab : (⟨e2, now2⟩ : CloudEventRow) ∈ cacheEvents now2 [e2] (cacheEvents now1 [e1] etable) := by
    simp [cacheEvents, upsertEventRow]
  simp only [getCachedEvents, cachedEventRows, emptyEvQuery, natTruthy] at hl
  simp only [ite_false, Bool.false_eq_true] at hl
  split at hl
  · exact absurd hl (by simp)
  · rename_i hne
    injection hl with hl
    subst hl
    constructor
    · refine List.mem_map.mpr ⟨⟨e2, now2⟩, ?_, rfl⟩
      exact (sortDescBy_mem _ _ _).mpr (List.mem_filter.mpr ⟨htab, hmatch⟩)
    · rw [List.all_eq_true]
      intro x hx
      rcases List.mem_map.mp hx with ⟨r, hr, hrx⟩
      have hrfil : r ∈ (cacheEvents now2 [e2] (cacheEvents now1 [e1] etable)).filter
          (evRowMatches ⟨none, none, none, none⟩ readNow maxAgeMs) :=
        (sortDescBy_mem _ _ _).mp hr
      have hrtab : r ∈ cacheEvents now2 [e2] (cacheEvents now1 [e1] etable) :=
        (List.mem_filter.mp hrfil).1
      by_cases hxid : x.id = e2.id
      · have hrid : r ∈ (cacheEvents now2 [e2] (cacheEvents now1 [e1] etable)).filter
            (fun r => r.ev.id == e2.id) := by
          refine List.mem_filter.mpr ⟨hrtab, ?_⟩
          rw [← hrx] at hxid
          simp [hxid]
        rw [hone] at hrid
        have : r = ⟨e2, now2⟩ := by simpa using hrid
        subst this
        simp [← hrx]
      · simp [← hrx] at hxid ⊢
        exact Or.inl hxid

/-- Event with a flipped favorite flag, same id, used by the C6 witness. -/
def e1C6 : CloudEvent := mkEvent "e1" "cam1" 100

/-- The re-cached event: same id, favorite flipped to true. -/
def e2C6 : CloudEvent := { mkEvent "e1" "cam1" 100 with favorite := true }

/-- The re-cached video: same dingId, favorite flipped to true. -/
def v2C6 : CloudVideo := { mkVideoW with favorite := true }

/-- Witness for the most-recent-write-wins theorem at concrete flipped-favorite
events and videos. -/
theorem cache_upsert_most_recent_wins_witness :
    ((cacheEvents 4 [e2C6] (cacheEvents 3 [e1C6] [])).filter
        (fun r => r.ev.id == e2C6.id) = [⟨e2C6, 4⟩])
      ∧ (e2C6 ∈ [e2C6] ∧ [e2C6].all (fun x => x.id != e2C6.id || x == e2C6) = true)
      ∧ ((cacheVideos 4 [v2C6] (cacheVideos 3 [mkVideoW] [])).filter
          (fun r => r.vid.dingId == v2C6.dingId) = [⟨v2C6, 4⟩]) := by
  have H := cache_upsert_most_recent_wins 3 4 5 10000 e1C6 e2C6 mkVideoW v2C6 [] []
    (by decide) (by decide) (by decide)
  exact ⟨H.1, H.2.1 [e2C6] (by decide), H.2.2⟩

/-- Cache table used by the C7 counterexample: one fresh row for device d1. -/
def tblC7 : List CloudEventRow := [⟨mkEvent "e1" "d1" 100, 0⟩]

/-- C7 counterexample: with the filter field deviceId provided as "" no row
satisfies deviceId = "", yet getCachedEvents returns a hit carrying the d1
row: the source adds a filter condition only for truthy fields
(`if (query.deviceId)`), so an empty-string filter is silently dropped and the
claimed miss does not occur. -/
theorem cache_query_empty_string_filter_cex :
    getCachedEvents ⟨some "", none, none, none⟩ 0 10000 tblC7
        = some [mkEvent "e1" "d1" 100]
      ∧ (mkEvent "e1" "d1" 100).deviceId ≠ "" := by
  decide

/-- Modelled from the spec's wording of the read filter: the freshness bound
`cachedAt ≥ now − maxAge` plus the conjunction of equality on every provided
filter field. Used to compare the source's truthiness-based WHERE clause
against the claimed semantics. -/
def evRowSatisfies (q : EventCacheQuery) (now : Int) (maxAgeMs : Nat) (r : CloudEventRow) :
    Prop :=
  (now - ageSeconds maxAgeMs ≤ r.cachedAt)
    ∧ (∀ s, q.deviceId = some s → r.ev.deviceId = s)
    ∧ (∀ s, q.locationId = some s → r.ev.locationId = s)
    ∧ (∀ s, q.kind = some s → r.ev.kind = s)

/-- For a field that is not the empty string, the source's truthy filter
condition coincides with the claimed provided-field equality. -/
theorem matchField_iff (o : Option String) (v : String) (ho : o ≠ some "") :
    matchField o v = true ↔ ∀ s, o = some s → v = s := by
  rcases o with _ | s
  · simp [matchField, strTruthy]
  · have hs : s ≠ "" := fun h => ho (by rw [h])
    simp only [matchField, strTruthy, Option.getD_some, bne_iff_ne, ne_eq, hs,
      not_false_eq_true, if_true, beq_iff_eq]
    constructor
    · intro h s2 hs2
      cases hs2
      exact h.symm
    · intro h
      exact (h s rfl).symm

/-- For queries without empty-string fields, the compiled WHERE clause is
exactly the claimed freshness-plus-conjunction predicate. -/
theorem evRowMatches_iff (q : EventCacheQuery) (now : Int) (maxAgeMs : Nat)
    (r : CloudEventRow) (hdev : q.deviceId ≠ some "") (hloc : q.locationId ≠ some "")
    (hkind : q.kind ≠ some "") :
    evRowMatches q now maxAgeMs r = true ↔ evRowSatisfies q now maxAgeMs r := by
  simp only [evRowMatches, Bool.and_eq_true, freshEventRow, decide_eq_true_eq, evRowSatisfies]
  rw [matchField_iff _ _ hdev, matchField_iff _ _ hloc, matchField_iff _ _ hkind]
  tauto

/-- C7 amended: for queries whose provided filter fields are non-empty strings
and whose limit, if provided, is positive, getCachedEvents returns null
exactly when no row satisfies the provided-field conjunction plus the
freshness bound (never an empty sequence); a hit is non-empty, ordered
newest-first by the item's own creation time, capped at the limit, and drawn
entirely from satisfying rows. -/
theorem cache_read_semantics_amended (q : EventCacheQuery) (now : Int) (maxAgeMs : Nat)
    (table : List CloudEventRow)
    (hdev : q.deviceId ≠ some "") (hloc : q.locationId ≠ some "")
    (hkind : q.kind ≠ some "") (hlim : q.limit ≠ some 0) :
    (getCachedEvents q now maxAgeMs table = none ↔
        ∀ r ∈ table, ¬ evRowSatisfies q now maxAgeMs r)
      ∧ (∀ l, getCachedEvents q now maxAgeMs table = some l →
          l ≠ []
            ∧ List.Pairwise (fun a b => b.createdAt ≤ a.createdAt) l
            ∧ (∀ n, q.limit = some n → l.length ≤ n)
            ∧ ∀ x ∈ l, ∃ r ∈ table, r.ev = x ∧ evRowSatisfies q now maxAgeMs r) := by
  have hLnil : cachedEventRows q now maxAgeMs table = []
      ↔ table.filter (evRowMatches q now maxAgeMs) = [] := by
    simp only [cachedEventRows]
    split
    · rename_i hnt
      rw [List.take_eq_nil_iff]
      rcases hql : q.limit with _ | n
      · rw [hql] at hnt; simp [natTruthy] at hnt
      · have hn : n ≠ 0 := by
          intro h
          rw [h] at hql
          exact hlim hql
        simp only [Option.getD_some]
        rw [sortDescBy_eq_nil]
        constructor
        · intro h
          rcases h with h | h
          · exact absurd h hn
          · exact h
        · intro h
          exact Or.inr h
    · rw [sortDescBy_eq_nil]
  have hsubl : (cachedEventRows q now maxAgeMs table).Sublist
      (sortDescBy (fun r => r.ev.createdAt) (table.filter (evRowMatches q now maxAgeMs))) := by
    simp only [cachedEventRows]
    split
    · exact List.take_sublist _ _
    · exact List.Sublist.refl _
  constructor
  · constructor
    · intro h r hr hsat
      have hemp : cachedEventRows q now maxAgeMs table = [] := by
        by_contra hne
        simp only [getCachedEvents] at h
        rw [if_neg (by simp only [List.isEmpty_iff]; exact hne)] at h
        exact Option.noConfusion h
      have hfil := hLnil.mp hemp
      rw [List.filter_eq_nil_iff] at hfil
      exact hfil r hr ((evRowMatches_iff q now maxAgeMs r hdev hloc hkind).mpr hsat)
    · intro hall
      have hfil : table.filter (evRowMatches q now maxAgeMs) = [] := by
        rw [List.filter_eq_nil_iff]
        intro r hr hm
        exact hall r hr ((evRowMatches_iff q now maxAgeMs r hdev hloc hkind).mp hm)
      have hemp : cachedEventRows q now maxAgeMs table = [] := hLnil.mpr hfil
      simp [getCachedEvents, hemp]
  · intro l hl
    simp only [getCachedEvents] at hl
    split at hl
    · exact absurd hl (by simp)
    · rename_i hemp
      injection hl with hl
      subst hl
      refine ⟨?_, ?_, ?_, ?_⟩
      · intro hmapnil
        rw [List.map_eq_nil_iff] at hmapnil
        rw [List.isEmpty_iff] at hemp
        exact hemp hmapnil
      · rw [List.pairwise_map]
        exact List.Pairwise.sublist hsubl
          (sortDescBy_pairwise (fun (r : CloudEventRow) => r.ev.createdAt) _)
      · intro n hn
        have hn0 : n ≠ 0 := by
          intro h
          rw [h] at hn
          exact hlim hn
        have hnt2 : natTruthy (some n) = true := by simp [natTruthy, hn0]
        rw [List.length_map]
        simp only [cachedEventRows, hn, hnt2, if_true, Option.getD_some]
        exact List.length_take_le _ _
      · intro x hx
        rcases List.mem_map.mp hx with ⟨r, hr, hrx⟩
        have hrs := hsubl.mem hr
        have hrf := (sortDescBy_mem _ _ _).mp hrs
        rcases List.mem_filter.mp hrf with ⟨hrt, hrm⟩
        exact ⟨r, hrt, hrx,
          (evRowMatches_iff q now maxAgeMs r hdev hloc hkind).mp hrm⟩

/-- Table for the C7 witness: two fresh rows for d1, one for another device. -/
def tableC7w : List CloudEventRow :=
  [⟨mkEvent "e1" "d1" 100, 0⟩, ⟨mkEvent "e2" "d1" 200, 0⟩, ⟨mkEvent "e3" "dX" 300, 0⟩]

/-- Witness for the amended read-semantics theorem: deviceId d1 with limit 1
returns exactly the newest d1 event, non-empty, sorted, capped at 1. -/
theorem cache_read_semantics_amended_witness :
    ([mkEvent "e2" "d1" 200] ≠ [])
      ∧ List.Pairwise (fun (a b : CloudEvent) => b.createdAt ≤ a.createdAt)
          [mkEvent "e2" "d1" 200]
      ∧ [mkEvent "e2" "d1" 200].length ≤ 1 := by
  have H := (cache_read_semantics_amended ⟨some "d1", none, none, some 1⟩ 5 10000 tableC7w
    (by decide) (by decide) (by decide) (by decide)).2 [mkEvent "e2" "d1" 200] (by decide)
  exact ⟨H.1, H.2.1, H.2.2.1 1 rfl⟩

/-- C8: CloudHistory.getEvents consults the cache only for queries without a
(truthy) paginationKey — with one, the remote path is always taken and the
remote's result is returned unchanged; and a cache hit is returned with
paginationKey null and hasMore false, with no remote call, so a cached answer
can never be an intermediate page of a cursor-driven crawl. -/
theorem cloud_history_cache_only_terminal (cache : Option (List CloudEventRow))
    (maxAgeMs : Nat) (now : Int) (q : CloudEventQueryArgs)
    (remote : Except String CloudEventQueryResult) :
    (strTruthy q.paginationKey = true →
        (cloudHistoryGetEvents cache maxAgeMs now q remote).remoteCalled = true
          ∧ (cloudHistoryGetEvents cache maxAgeMs now q remote).result = remote)
      ∧ (∀ hit, cachedAnswer cache maxAgeMs now q = some hit →
        (cloudHistoryGetEvents cache maxAgeMs now q remote).remoteCalled = false
          ∧ (cloudHistoryGetEvents cache maxAgeMs now q remote).result =
              Except.ok ⟨hit, none, false⟩
          ∧ (cloudHistoryGetEvents cache maxAgeMs now q remote).cacheAfter = cache) := by
  constructor
  · intro hpk
    have hca : cachedAnswer cache maxAgeMs now q = none := by
      rcases cache with _ | table
      · rfl
      · simp [cachedAnswer, hpk]
    rcases remote with msg | res
    · simp [cloudHistoryGetEvents, hca]
    · simp [cloudHistoryGetEvents, hca]
  · intro hit hca
    simp [cloudHistoryGetEvents, hca]

/-- Cache table whose single row is fresh at read time 5 for device d1. -/
def cacheC8 : List CloudEventRow := [⟨mkEvent "e1" "d1" 100, 4⟩]

/-- Witness for the cache-only-terminal theorem: a cursor query goes remote
and returns the remote page unchanged; a cursorless query over a warm cache
returns the cached page with a null cursor, no more data and no remote call. -/
theorem cloud_history_cache_only_terminal_witness :
    ((cloudHistoryGetEvents (some cacheC8) 10000 5 ⟨some "d1", none, none, none, some "c1"⟩
          (Except.ok ⟨[mkEvent "e2" "d1" 200], some "c2", true⟩)).remoteCalled = true
        ∧ (cloudHistoryGetEvents (some cacheC8) 10000 5 ⟨some "d1", none, none, none, some "c1"⟩
          (Except.ok ⟨[mkEvent "e2" "d1" 200], some "c2", true⟩)).result =
            Except.ok ⟨[mkEvent "e2" "d1" 200], some "c2", true⟩)
      ∧ ((cloudHistoryGetEvents (some cacheC8) 10000 5 ⟨some "d1", none, none, none, none⟩
          (Except.ok ⟨[mkEvent "e2" "d1" 200], some "c2", true⟩)).remoteCalled = false
        ∧ (cloudHistoryGetEvents (some cacheC8) 10000 5 ⟨some "d1", none, none, none, none⟩
          (Except.ok ⟨[mkEvent "e2" "d1" 200], some "c2", true⟩)).result =
            Except.ok ⟨[mkEvent "e1" "d1" 100], none, false⟩
        ∧ (cloudHistoryGetEvents (some cacheC8) 10000 5 ⟨some "d1", none, none, none, none⟩
          (Except.ok ⟨[mkEvent "e2" "d1" 200], some "c2", true⟩)).cacheAfter = some cacheC8) := by
  constructor
  · exact (cloud_history_cache_only_terminal (some cacheC8) 10000 5
      ⟨some "d1", none, none, none, some "c1"⟩
      (Except.ok ⟨[mkEvent "e2" "d1" 200], some "c2", true⟩)).1 (by decide)
  · exact (cloud_history_cache_only_terminal (some cacheC8) 10000 5
      ⟨some "d1", none, none, none, none⟩
      (Except.ok ⟨[mkEvent "e2" "d1" 200], some "c2", true⟩)).2 [mkEvent "e1" "d1" 100]
      (by decide)

/-- Per-phase slice of the status report (part_007:91-95). -/
structure PhaseReport where
  status : CrawlStatus
  totalFetched : Nat
  oldestFetchedAt : Option Int
deriving DecidableEq

/-- `defaultPhaseStatus()` (part_007:91): idle, zero progress. -/
def defaultPhaseReport : PhaseReport := ⟨.idle, 0, none⟩

/-- Per-camera entry of the status report. -/
structure CameraReport where
  deviceId : String
  deviceName : String
  events : PhaseReport
  videos : PhaseReport
deriving DecidableEq

/-- Per-location entry of the status report. -/
structure LocationReport where
  locationId : String
  locationName : String
  deviceHistory : PhaseReport
deriving DecidableEq

/-- Summary block of the status report. -/
structure CrawlSummary where
  totalCameras : Nat
  camerasCompleted : Nat
  totalLocations : Nat
  locationsCompleted : Nat
  totalEventsFetched : Nat
  totalVideosFetched : Nat
  totalDeviceHistoryFetched : Nat
deriving DecidableEq

/-- `CrawlStatusReport` (src/types/index.ts). -/
structure CrawlStatusReport where
  running : Bool
  cameras : List CameraReport
  locations : List LocationReport
  summary : CrawlSummary
deriving DecidableEq

/-- Name map lookup (`Map.get`). -/
def lookupName : List (String × String) → String → Option String
  | [], _ => none
  | (k, v) :: rest, key => if k = key then some v else lookupName rest key

/-- Phase slice of a ledger row. -/
def phaseOf (s : CrawlState) : PhaseReport := ⟨s.status, s.totalFetched, s.oldestFetchedAt⟩

/-- Camera entry created from an events-phase row (part_007:104-111): the
videos slice defaults to idle/zero until a videos row is merged. -/
def cameraFromEvents (cameraNames : List (String × String)) (s : CrawlState) : CameraReport :=
  { deviceId := s.entityId
    deviceName := (lookupName cameraNames s.entityId).getD s.entityId
    events := phaseOf s
    videos := defaultPhaseReport }

/-- Merge of one videos-phase row into the camera map (part_007:113-125): an
existing entry gets its videos slice replaced; otherwise a new entry is added
whose events slice is the default. -/
def addVideoState (cameraNames : List (String × String)) (acc : List CameraReport)
    (s : CrawlState) : List CameraReport :=
  if acc.any (fun c => c.deviceId == s.entityId) then
    acc.map (fun c => if c.deviceId == s.entityId then { c with videos := phaseOf s } else c)
  else
    acc ++ [{ deviceId := s.entityId
              deviceName := (lookupName cameraNames s.entityId).getD s.entityId
              events := defaultPhaseReport
              videos := phaseOf s }]

/-- Camera-map construction of getStatus: one pass over the events rows (the
ledger's (entityId, phase) PRIMARY KEY makes their entityIds unique, so the
JavaScript `Map.set` pass is an append per row), then the videos merge pass. -/
def buildCameras (cameraNames : List (String × String))
    (eventStates videoStates : List CrawlState) : List CameraReport :=
  videoStates.foldl (addVideoState cameraNames) (eventStates.map (cameraFromEvents cameraNames))

/-- `HistoricCrawler.getStatus` (part_007:71-159) as a pure function of the
ledger rows and the optional device/location directory; `dir = none` models
the directory enumeration throwing, in which case both name maps stay empty
and entity ids stand in for display names. -/
def getStatus (running : Bool) (states : List CrawlState)
    (dir : Option ((List (String × String)) × (List (String × String)))) : CrawlStatusReport :=
  let eventStates := states.filter (fun s => decide (s.phase = CrawlPhase.events))
  let videoStates := states.filter (fun s => decide (s.phase = CrawlPhase.videos))
  let historyStates := states.filter (fun s => decide (s.phase = CrawlPhase.device_history))
  let cameraNames := (dir.map Prod.fst).getD []
  let locationNames := (dir.map Prod.snd).getD []
  let cameras := buildCameras cameraNames eventStates videoStates
  let locations := historyStates.map (fun s =>
    { locationId := s.entityId
      locationName := (lookupName locationNames s.entityId).getD s.entityId
      deviceHistory := phaseOf s })
  { running := running
    cameras := cameras
    locations := locations
    summary :=
      { totalCameras := cameras.length
        camerasCompleted := (cameras.filter (fun c =>
          decide (c.events.status = .completed) && decide (c.videos.status = .completed))).length
        totalLocations := locations.length
        locationsCompleted := (locations.filter (fun l =>
          decide (l.deviceHistory.status = .completed))).length
        totalEventsFetched := (eventStates.map (fun s => s.totalFetched)).sum
        totalVideosFetched := (videoStates.map (fun s => s.totalFetched)).sum
        totalDeviceHistoryFetched := (historyStates.map (fun s => s.totalFetched)).sum } }

/-- A camera entry whose id differs from every processed videos row survives
the merge pass unchanged. -/
theorem addVideoState_fold_preserves (cameraNames : List (String × String)) :
    ∀ (vs : List CrawlState) (acc : List CameraReport) (c : CameraReport),
      c ∈ acc → (∀ v ∈ vs, v.entityId ≠ c.deviceId) →
      c ∈ vs.foldl (addVideoState cameraNames) acc := by
  intro vs
  induction vs with
  | nil => intro acc c hc _; exact hc
  | cons w rest ih =>
    intro acc c hc hne
    have hwne : w.entityId ≠ c.deviceId := hne w (by simp)
    have hc2 : c ∈ addVideoState cameraNames acc w := by
      simp only [addVideoState]
      split
      · refine List.mem_map.mpr ⟨c, hc, ?_⟩
        rw [if_neg]
        simp [hwne.symm]
      · exact List.mem_append_left _ hc
    exact ih (addVideoState cameraNames acc w) c hc2
      (fun v hv => hne v (List.mem_cons_of_mem _ hv))

/-- Every id in the merged camera list comes from the accumulator or from the
merged videos row. -/
theorem addVideoState_mem_id (cameraNames : List (String × String))
    (acc : List CameraReport) (w : CrawlState) (c : CameraReport)
    (hc : c ∈ addVideoState cameraNames acc w) :
    (∃ c0 ∈ acc, c.deviceId = c0.deviceId) ∨ c.deviceId = w.entityId := by
  simp only [addVideoState] at hc
  split at hc
  · rcases List.mem_map.mp hc with ⟨c0, hc0, hcc⟩
    by_cases h : c0.deviceId = w.entityId
    · rw [if_pos (by simp [h])] at hcc
      left
      exact ⟨c0, hc0, by rw [← hcc]⟩
    · rw [if_neg (by simp [h])] at hcc
      left
      exact ⟨c0, hc0, by rw [← hcc]⟩
  · rcases List.mem_append.mp hc with h | h
    · left
      exact ⟨c, h, rfl⟩
    · right
      have : c = { deviceId := w.entityId
                   deviceName := (lookupName cameraNames w.entityId).getD w.entityId
                   events := defaultPhaseReport
                   videos := phaseOf w } := by simpa using h
      rw [this]

/-- A videos row whose id matches no accumulator entry and no other processed
videos row produces an entry with the default events slice. -/
theorem addVideoState_fold_adds (cameraNames : List (String × String)) :
    ∀ (vs : List CrawlState) (acc : List CameraReport) (v : CrawlState),
      v ∈ vs → (∀ c ∈ acc, c.deviceId ≠ v.entityId) →
      vs.Pairwise (fun a b => a.entityId ≠ b.entityId) →
      ({ deviceId := v.entityId
         deviceName := (lookupName cameraNames v.entityId).getD v.entityId
         events := defaultPhaseReport
         videos := phaseOf v } : CameraReport) ∈ vs.foldl (addVideoState cameraNames) acc := by
  intro vs
  induction vs with
  | nil => intro _ _ hv; exact absurd hv (by simp)
  | cons w rest ih =>
    intro acc v hv hacc hpw
    rcases List.pairwise_cons.mp hpw with ⟨hwrest, hrest⟩
    rcases List.mem_cons.mp hv with rfl | hv2
    · have hnone : acc.any (fun c => c.deviceId == v.entityId) = false := by
        rw [List.any_eq_false]
        intro c hc
        simp [hacc c hc]
      have hstep : addVideoState cameraNames acc v =
          acc ++ [{ deviceId := v.entityId
                    deviceName := (lookupName cameraNames v.entityId).getD v.entityId
                    events := defaultPhaseReport
                    videos := phaseOf v }] := by
        simp only [addVideoState, hnone]
        simp
      rw [List.foldl_cons, hstep]
      refine addVideoState_fold_preserves cameraNames rest _ _ ?_ ?_
      · exact List.mem_append_right _ (by simp)
      · intro u hu
        exact (hwrest u hu).symm
    · refine ih (addVideoState cameraNames acc w) v hv2 ?_ hrest
      intro c hc
      rcases addVideoState_mem_id cameraNames acc w c hc with ⟨c0, hc0, he⟩ | he
      · rw [he]
        exact hacc c0 hc0
      · rw [he]
        exact hwrest v hv2

/-- C9: getStatus (a total function of the ledger rows — absence of a row is
never an error) reports a default idle/zero/null slice for every phase whose
row is missing: a camera with an events row but no videos row gets the default
videos slice, one with a videos row but no events row gets the default events
slice; and when the device/location directory is unavailable (`dir = none`)
the report is still produced with entity ids standing in for display names. -/
theorem getStatus_defaults (running : Bool) (states : List CrawlState)
    (dir : Option ((List (String × String)) × (List (String × String)))) (s : CrawlState)
    (hs : s ∈ states)
    (hkeys : states.Pairwise (fun a b => a.entityId ≠ b.entityId ∨ a.phase ≠ b.phase)) :
    (s.phase = CrawlPhase.events →
        (∀ v ∈ states, v.phase = CrawlPhase.videos → v.entityId ≠ s.entityId) →
        (getStatus running states dir).cameras.any (fun c =>
          decide (c.deviceId = s.entityId) && decide (c.events = phaseOf s)
            && decide (c.videos = defaultPhaseReport)
            && decide (dir = none → c.deviceName = s.entityId)) = true)
      ∧ (s.phase = CrawlPhase.videos →
        (∀ v ∈ states, v.phase = CrawlPhase.events → v.entityId ≠ s.entityId) →
        (getStatus running states dir).cameras.any (fun c =>
          decide (c.deviceId = s.entityId) && decide (c.videos = phaseOf s)
            && decide (c.events = defaultPhaseReport)
            && decide (dir = none → c.deviceName = s.entityId)) = true) := by
  constructor
  · intro hph hnov
    rw [List.any_eq_true]
    refine ⟨cameraFromEvents ((dir.map Prod.fst).getD []) s, ?_, ?_⟩
    · show _ ∈ buildCameras _ _ _
      refine addVideoState_fold_preserves _ _ _ _ ?_ ?_
      · exact List.mem_map.mpr ⟨s, List.mem_filter.mpr ⟨hs, by simp [hph]⟩, rfl⟩
      · intro v hv
        rcases List.mem_filter.mp hv with ⟨hvs, hvp⟩
        simp only [decide_eq_true_eq] at hvp
        exact hnov v hvs hvp
    · rcases dir with _ | d
      · simp [cameraFromEvents, lookupName]
      · simp [cameraFromEvents]
  · intro hph hnoe
    rw [List.any_eq_true]
    have hpwv : (states.filter (fun s => decide (s.phase = CrawlPhase.videos))).Pairwise
        (fun a b => a.entityId ≠ b.entityId) := by
      refine List.Pairwise.imp_of_mem ?_ (hkeys.filter _)
      intro a b ha hb hab
      rcases List.mem_filter.mp ha with ⟨_, hap⟩
      rcases List.mem_filter.mp hb with ⟨_, hbp⟩
      simp only [decide_eq_true_eq] at hap hbp
      rcases hab with h | h
      · exact h
      · exact absurd (hap.trans hbp.symm) h
    refine ⟨{ deviceId := s.entityId
              deviceName := (lookupName ((dir.map Prod.fst).getD []) s.entityId).getD s.entityId
              events := defaultPhaseReport
              videos := phaseOf s }, ?_, ?_⟩
    · show _ ∈ buildCameras _ _ _
      refine addVideoState_fold_adds _ _ _ _ ?_ ?_ hpwv
      · exact List.mem_filter.mpr ⟨hs, by simp [hph]⟩
      · intro c hc
        rcases List.mem_map.mp hc with ⟨e, he, hce⟩
        rcases List.mem_filter.mp he with ⟨hes, hep⟩
        simp only [decide_eq_true_eq] at hep
        rw [← hce]
        show e.entityId ≠ s.entityId
        exact hnoe e hes hep
    · rcases dir with _ | d
      · simp [lookupName]
      · simp

/-- Ledger rows for the getStatus witness: camera camA has only an events row,
camera camB has only a videos row. -/
def statesC9 : List CrawlState :=
  [{ entityId := "camA", phase := .events, status := .running, paginationKey := some "c9"
     oldestFetchedAt := some 10, newestFetchedAt := some 20, totalFetched := 7
     lastError := none, updatedAt := 0, startedAt := some 0, completedAt := none },
   { entityId := "camB", phase := .videos, status := .completed, paginationKey := none
     oldestFetchedAt := some 30, newestFetchedAt := some 40, totalFetched := 3
     lastError := none, updatedAt := 0, startedAt := some 0, completedAt := some 50 }]

/-- Witness for the getStatus default-entry theorem, with the directory
unavailable: camA gets a default videos slice, camB a default events slice,
and both display names fall back to the entity ids. -/
theorem getStatus_defaults_witness :
    ((getStatus true statesC9 none).cameras.any (fun c =>
        decide (c.deviceId = "camA") && decide (c.events = phaseOf (statesC9.get ⟨0, by decide⟩))
          && decide (c.videos = defaultPhaseReport)
          && decide ((none : Option ((List (String × String)) × (List (String × String)))) = none
            → c.deviceName = "camA")) = true)
      ∧ ((getStatus true statesC9 none).cameras.any (fun c =>
        decide (c.deviceId = "camB") && decide (c.videos = phaseOf (statesC9.get ⟨1, by decide⟩))
          && decide (c.events = defaultPhaseReport)
          && decide ((none : Option ((List (String × String)) × (List (String × String)))) = none
            → c.deviceName = "camB")) = true) := by
  constructor
  · exact (getStatus_defaults true statesC9 none (statesC9.get ⟨0, by decide⟩) (by decide)
      (by decide)).1 (by decide) (by decide)
  · exact (getStatus_defaults true statesC9 none (statesC9.get ⟨1, by decide⟩) (by decide)
      (by decide)).2 (by decide) (by decide)

/-- Milliseconds per day; `setDate` arithmetic is modelled as fixed-length
(UTC) days. -/
def msPerDay : Int := 86400000

/-- `MAX_HISTORY_DAYS` (part_007:27): maximum age of remote cloud data. -/
def maxHistoryDays : Int := 180

/-- The lookback cutoff computed at part_007:278-279: now minus 180 days. -/
def videosCutoff (now : Int) : Int := now - maxHistoryDays * msPerDay

/-- Boolean success test for a scripted remote response. -/
def exceptIsOk : Except String α → Bool
  | .ok _ => true
  | .error _ => false

/-- Result of one videos-phase run. -/
structure VideosRunResult where
  outcome : CrawlOutcome
  finalState : CrawlState
  writes : List CrawlState
deriving DecidableEq

/-- Ledger-row update for one video window (part_007:301-309): the window's
item count is added, `oldestFetchedAt` becomes the window's lower bound, and
`newestFetchedAt` is set from the first item only when still unset. -/
def applyVideosWindow (s : CrawlState) (vids : List CloudVideo) (dateFrom now : Int) :
    CrawlState :=
  { s with
    totalFetched := s.totalFetched + vids.length
    oldestFetchedAt := some dateFrom
    newestFetchedAt :=
      match s.newestFetchedAt, vids with
      | none, v :: _ => some v.createdAt
      | cur, _ => cur
    updatedAt := now }

/-- Window loop of `HistoricCrawler.crawlVideosForDevice` (part_007:282-313),
with fuel bounding the number of iterations: while the upper bound is past the
cutoff, fetch the window clamped at the cutoff, update and upsert the row, and
move the upper bound down to the window's lower bound; when the bound reaches
the cutoff, mark completed. -/
def crawlVideosGo (remote : Int → Int → Except String (List CloudVideo))
    (windowDays : Nat) (now cutoff : Int) :
    Nat → CrawlState → Int → VideosRunResult
  | 0, stored, _ => ⟨.fuelExhausted, stored, []⟩
  | fuel + 1, stored, dateTo =>
    if cutoff < dateTo then
      let dateFrom := max (dateTo - (windowDays : Int) * msPerDay) cutoff
      match remote dateFrom dateTo with
      | .error msg => ⟨.errored, markErrorState stored msg, [markErrorState stored msg]⟩
      | .ok vids =>
        let s1 := applyVideosWindow stored vids dateFrom now
        let r := crawlVideosGo remote windowDays now cutoff fuel s1 dateFrom
        ⟨r.outcome, r.finalState, s1 :: r.writes⟩
    else
      ⟨.completed, markCompletedState stored now, [markCompletedState stored now]⟩

/-- `HistoricCrawler.crawlVideosForDevice` (part_007:261-323): same
status-dependent entry handling as the other phases; the starting upper bound
is the ledger's `oldestFetchedAt` when present, else now. -/
def crawlVideosForDevice (prior : Option CrawlState) (deviceId : String)
    (remote : Int → Int → Except String (List CloudVideo)) (windowDays : Nat)
    (now : Int) (fuel : Nat) : VideosRunResult :=
  let cutoff := videosCutoff now
  match prior with
  | some st =>
    if st.status = .completed then ⟨.skipped, st, []⟩
    else if st.status = .idle ∨ st.status = .error then
      let s0 := makeInitialState deviceId .videos now
      let r := crawlVideosGo remote windowDays now cutoff fuel s0 (s0.oldestFetchedAt.getD now)
      ⟨r.outcome, r.finalState, s0 :: r.writes⟩
    else if st.status = .paused then
      let s0 : CrawlState := { st with status := .running }
      let r := crawlVideosGo remote windowDays now cutoff fuel s0 (s0.oldestFetchedAt.getD now)
      ⟨r.outcome, r.finalState, s0 :: r.writes⟩
    else
      crawlVideosGo remote windowDays now cutoff fuel st (st.oldestFetchedAt.getD now)
  | none =>
    let s0 := makeInitialState deviceId .videos now
    let r := crawlVideosGo remote windowDays now cutoff fuel s0 (s0.oldestFetchedAt.getD now)
    ⟨r.outcome, r.finalState, s0 :: r.writes⟩

/-- Starting upper bound of the videos window loop as determined by the entry
handling: re-initialised rows start at now, resumed rows at their stored
`oldestFetchedAt` (falling back to now). -/
def videosStart (prior : Option CrawlState) (now : Int) : Int :=
  match prior with
  | none => now
  | some st =>
    if st.status = .idle ∨ st.status = .error then now else st.oldestFetchedAt.getD now

/-- Termination and final bound of the videos window loop: with a positive
window, an error-free remote, and enough fuel (one unit per elapsed
millisecond of lookback more than suffices, since every iteration moves the
bound down by at least a full day), the loop completes; when it starts past
the cutoff its final `oldestFetchedAt` is exactly the cutoff, otherwise the
row is left with its prior bound. -/
theorem crawlVideosGo_completes (remote : Int → Int → Except String (List CloudVideo))
    (windowDays : Nat) (now cutoff : Int)
    (hw : 1 ≤ windowDays)
    (hremote : ∀ a b, exceptIsOk (remote a b) = true) :
    ∀ (fuel : Nat) (stored : CrawlState) (dateTo : Int),
      (dateTo - cutoff).toNat < fuel →
      (crawlVideosGo remote windowDays now cutoff fuel stored dateTo).outcome
          = CrawlOutcome.completed
        ∧ (crawlVideosGo remote windowDays now cutoff fuel stored dateTo).finalState.status
          = CrawlStatus.completed
        ∧ (crawlVideosGo remote windowDays now cutoff fuel stored dateTo).finalState.oldestFetchedAt
          = (if cutoff < dateTo then some cutoff else stored.oldestFetchedAt) := by
  intro fuel
  induction fuel with
  | zero => intro stored dateTo hf; omega
  | succ fuel ih =>
    intro stored dateTo hf
    by_cases hpast : cutoff < dateTo
    · have hok := hremote (max (dateTo - (windowDays : Int) * msPerDay) cutoff) dateTo
      rcases hr : remote (max (dateTo - (windowDays : Int) * msPerDay) cutoff) dateTo with
        msg | vids
      · rw [hr] at hok
        exact absurd hok (by simp [exceptIsOk])
      · have hday : (1 : Int) * msPerDay ≤ (windowDays : Int) * msPerDay := by
          have : (1 : Int) ≤ (windowDays : Int) := by exact_mod_cast hw
          exact mul_le_mul_of_nonneg_right this (by simp [msPerDay])
        have hfuel2 : ((max (dateTo - (windowDays : Int) * msPerDay) cutoff) - cutoff).toNat
            < fuel := by
          simp only [msPerDay] at hday ⊢
          omega
        have IH := ih (applyVideosWindow stored vids
          (max (dateTo - (windowDays : Int) * msPerDay) cutoff) now)
          (max (dateTo - (windowDays : Int) * msPerDay) cutoff) hfuel2
        have hstep : crawlVideosGo remote windowDays now cutoff (fuel + 1) stored dateTo =
            (let s1 := applyVideosWindow stored vids
              (max (dateTo - (windowDays : Int) * msPerDay) cutoff) now
             let r := crawlVideosGo remote windowDays now cutoff fuel s1
              (max (dateTo - (windowDays : Int) * msPerDay) cutoff)
             ⟨r.outcome, r.finalState, s1 :: r.writes⟩) := by
          simp only [crawlVideosGo, if_pos hpast, hr]
        rw [hstep]
        dsimp only
        refine ⟨IH.1, IH.2.1, ?_⟩
        rw [IH.2.2, if_pos hpast]
        by_cases hclamp : cutoff < max (dateTo - (windowDays : Int) * msPerDay) cutoff
        · rw [if_pos hclamp]
        · rw [if_neg hclamp]
          have : max (dateTo - (windowDays : Int) * msPerDay) cutoff = cutoff := by omega
          simp [applyVideosWindow, this]
    · have hstep : crawlVideosGo remote windowDays now cutoff (fuel + 1) stored dateTo =
          ⟨.completed, markCompletedState stored now, [markCompletedState stored now]⟩ := by
        simp only [crawlVideosGo, if_neg hpast]
      rw [hstep, if_neg hpast]
      exact ⟨rfl, rfl, rfl⟩

/-- C10: for any windowDays ≥ 1, an error-free remote, a prior row that is not
completed, a start bound past the cutoff and sufficient fuel, the videos-phase
window loop terminates as completed with `oldestFetchedAt` equal to the
180-day cutoff timestamp. -/
theorem videos_window_loop_terminates (prior : Option CrawlState) (deviceId : String)
    (remote : Int → Int → Except String (List CloudVideo)) (windowDays fuel : Nat)
    (now : Int)
    (hw : 1 ≤ windowDays)
    (hremote : ∀ a b, exceptIsOk (remote a b) = true)
    (hprior : ∀ st, prior = some st → st.status ≠ CrawlStatus.completed)
    (hstart : videosCutoff now < videosStart prior now)
    (hfuel : (videosStart prior now - videosCutoff now).toNat < fuel) :
    (crawlVideosForDevice prior deviceId remote windowDays now fuel).outcome
        = CrawlOutcome.completed
      ∧ (crawlVideosForDevice prior deviceId remote windowDays now fuel).finalState.status
        = CrawlStatus.completed
      ∧ (crawlVideosForDevice prior deviceId remote windowDays now fuel).finalState.oldestFetchedAt
        = some (videosCutoff now) := by
  have hmain := crawlVideosGo_completes remote windowDays now (videosCutoff now) hw hremote fuel
  rcases prior with _ | st
  · have hst : videosStart none now = now := rfl
    rw [hst] at hstart hfuel
    have H := hmain (makeInitialState deviceId .videos now)
      ((makeInitialState deviceId .videos now).oldestFetchedAt.getD now)
      (by simpa [makeInitialState] using hfuel)
    have hrun : crawlVideosForDevice none deviceId remote windowDays now fuel =
        (let s0 := makeInitialState deviceId .videos now
         let r := crawlVideosGo remote windowDays now (videosCutoff now) fuel s0
           (s0.oldestFetchedAt.getD now)
         ⟨r.outcome, r.finalState, s0 :: r.writes⟩) := by
      simp [crawlVideosForDevice]
    rw [hrun]
    refine ⟨H.1, H.2.1, ?_⟩
    rw [H.2.2, if_pos (by simpa [makeInitialState] using hstart)]
  · have hnc : st.status ≠ CrawlStatus.completed := hprior st rfl
    rcases hsv : st.status
    case completed => exact absurd hsv hnc
    case idle =>
      rw [videosStart, hsv] at hstart hfuel
      simp only [true_or, if_true] at hstart hfuel
      have H := hmain (makeInitialState deviceId .videos now)
        ((makeInitialState deviceId .videos now).oldestFetchedAt.getD now)
        (by simpa [makeInitialState] using hfuel)
      have hrun : crawlVideosForDevice (some st) deviceId remote windowDays now fuel =
          (let s0 := makeInitialState deviceId .videos now
           let r := crawlVideosGo remote windowDays now (videosCutoff now) fuel s0
             (s0.oldestFetchedAt.getD now)
           ⟨r.outcome, r.finalState, s0 :: r.writes⟩) := by
        simp [crawlVideosForDevice, hsv]
      rw [hrun]
      refine ⟨H.1, H.2.1, ?_⟩
      rw [H.2.2, if_pos (by simpa [makeInitialState] using hstart)]
    case error =>
      rw [videosStart, hsv] at hstart hfuel
      simp only [or_true, if_true] at hstart hfuel
      have H := hmain (makeInitialState deviceId .videos now)
        ((makeInitialState deviceId .videos now).oldestFetchedAt.getD now)
        (by simpa [makeInitialState] using hfuel)
      have hrun : crawlVideosForDevice (some st) deviceId remote windowDays now fuel =
          (let s0 := makeInitialState deviceId .videos now
           let r := crawlVideosGo remote windowDays now (videosCutoff now) fuel s0
             (s0.oldestFetchedAt.getD now)
           ⟨r.outcome, r.finalState, s0 :: r.writes⟩) := by
        simp [crawlVideosForDevice, hsv]
      rw [hrun]
      refine ⟨H.1, H.2.1, ?_⟩
      rw [H.2.2, if_pos (by simpa [makeInitialState] using hstart)]
    case paused =>
      rw [videosStart, hsv] at hstart hfuel
      simp only [if_neg (by simp : ¬ (CrawlStatus.paused = CrawlStatus.idle
        ∨ CrawlStatus.paused = CrawlStatus.error))] at hstart hfuel
      have H := hmain { st with status := .running } (st.oldestFetchedAt.getD now) hfuel
      have hrun : crawlVideosForDevice (some st) deviceId remote windowDays now fuel =
          (let s0 : CrawlState := { st with status := .running }
           let r := crawlVideosGo remote windowDays now (videosCutoff now) fuel s0
             (s0.oldestFetchedAt.getD now)
           ⟨r.outcome, r.finalState, s0 :: r.writes⟩) := by
        simp [crawlVideosForDevice, hsv]
      rw [hrun]
      refine ⟨H.1, H.2.1, ?_⟩
      rw [H.2.2, if_pos hstart]
    case running =>
      rw [videosStart, hsv] at hstart hfuel
      simp only [if_neg (by simp : ¬ (CrawlStatus.running = CrawlStatus.idle
        ∨ CrawlStatus.running = CrawlStatus.error))] at hstart hfuel
      have H := hmain st (st.oldestFetchedAt.getD now) hfuel
      have hrun : crawlVideosForDevice (some st) deviceId remote windowDays now fuel =
          crawlVideosGo remote windowDays now (videosCutoff now) fuel st
            (st.oldestFetchedAt.getD now) := by
        simp [crawlVideosForDevice, hsv]
      rw [hrun]
      refine ⟨H.1, H.2.1, ?_⟩
      rw [H.2.2, if_pos hstart]

/-- Witness for the videos-loop termination theorem: one-day windows from now
= 0 with an empty remote; fuel covering the full 180-day lookback. -/
theorem videos_window_loop_terminates_witness :
    (crawlVideosForDevice none "cam1" (fun _ _ => Except.ok []) 1 0 15552000001).outcome
        = CrawlOutcome.completed
      ∧ (crawlVideosForDevice none "cam1" (fun _ _ => Except.ok []) 1 0
          15552000001).finalState.status = CrawlStatus.completed
      ∧ (crawlVideosForDevice none "cam1" (fun _ _ => Except.ok []) 1 0
          15552000001).finalState.oldestFetchedAt = some (videosCutoff 0) := by
  exact videos_window_loop_terminates none "cam1" (fun _ _ => Except.ok []) 1 15552000001 0
    (by decide) (fun _ _ => rfl) (fun st h => Option.noConfusion h) (by decide) (by decide)

/-- Projection lemma: a device-history page adds the sink-reported count. -/
theorem applyDhPage_totalFetched (s : CrawlState) (events : List RawItem)
    (inserted offsetAfter : Nat) (now : Int) :
    (applyDhPage s events inserted offsetAfter now).totalFetched
      = s.totalFetched + inserted := rfl

/-- Ledger writes of the device-history loop never decrease `totalFetched`:
the write trace is monotone and every write is at least the entry row's count. -/
theorem crawlDhGo_writes_mono (locationId : String) (pageSize : Nat) (now : Int) :
    ∀ (script : List (Except String (List RawItem))) (store : List (String × String))
      (stored : CrawlState) (offset : Nat),
      List.Chain' (fun a b => a.totalFetched ≤ b.totalFetched)
          (crawlDhGo locationId pageSize now script store stored offset).writes
        ∧ ∀ w ∈ (crawlDhGo locationId pageSize now script store stored offset).writes,
            stored.totalFetched ≤ w.totalFetched := by
  intro script
  induction script with
  | nil =>
    intro store stored offset
    constructor
    · simp [crawlDhGo]
    · intro w hw
      simp [crawlDhGo] at hw
  | cons head rest ih =>
    intro store stored offset
    rcases head with msg | events
    · constructor
      · simp [crawlDhGo]
      · intro w hw
        simp [crawlDhGo] at hw
        subst hw
        simp [markErrorState]
    · by_cases h0 : events.length = 0
      · constructor
        · simp [crawlDhGo, h0]
        · intro w hw
          simp [crawlDhGo, h0] at hw
          subst hw
          simp [markCompletedState]
      · by_cases hshort : events.length < pageSize
        · constructor
          · simp [crawlDhGo, h0, hshort, markCompletedState, applyDhPage]
          · intro w hw
            simp [crawlDhGo, h0, hshort] at hw
            rcases hw with hw | hw <;> subst hw <;>
              simp [markCompletedState, applyDhPage]
        · have step := crawlDhGo_cons_full locationId pageSize now events rest store stored
            offset h0 hshort
          have ihc := ih (dhInsert locationId events store).1
            (applyDhPage stored events (dhInsert locationId events store).2
              (offset + events.length) now) (offset + events.length)
          rw [step]
          dsimp only
          constructor
          · refine List.chain'_cons'.mpr ⟨?_, ihc.1⟩
            intro y hy
            exact ihc.2 y (List.mem_of_mem_head? hy)
          · intro w hw
            rcases List.mem_cons.mp hw with rfl | hw
            · simp [applyDhPage]
            · exact le_trans (by simp [applyDhPage]) (ihc.2 w hw)

/-- Helper: prepending the device-history loop's entry row keeps the write
trace monotone. -/
theorem chain_cons_dhGo (locationId : String) (pageSize : Nat) (now : Int)
    (script : List (Except String (List RawItem))) (store : List (String × String))
    (s0 : CrawlState) (offset : Nat) :
    List.Chain' (fun a b => a.totalFetched ≤ b.totalFetched)
      (s0 :: (crawlDhGo locationId pageSize now script store s0 offset).writes) := by
  refine List.chain'_cons'.mpr
    ⟨?_, (crawlDhGo_writes_mono locationId pageSize now script store s0 offset).1⟩
  intro y hy
  exact (crawlDhGo_writes_mono locationId pageSize now script store s0 offset).2 y
    (List.mem_of_mem_head? hy)

/-- Projection lemma: a video window adds its item count. -/
theorem applyVideosWindow_totalFetched (s : CrawlState) (vids : List CloudVideo)
    (dateFrom now : Int) :
    (applyVideosWindow s vids dateFrom now).totalFetched
      = s.totalFetched + vids.length := rfl

/-- Ledger writes of the videos window loop never decrease `totalFetched`:
the write trace is monotone and every write is at least the entry row's count. -/
theorem crawlVideosGo_writes_mono (remote : Int → Int → Except String (List CloudVideo))
    (windowDays : Nat) (now cutoff : Int) :
    ∀ (fuel : Nat) (stored : CrawlState) (dateTo : Int),
      List.Chain' (fun a b => a.totalFetched ≤ b.totalFetched)
          (crawlVideosGo remote windowDays now cutoff fuel stored dateTo).writes
        ∧ ∀ w ∈ (crawlVideosGo remote windowDays now cutoff fuel stored dateTo).writes,
            stored.totalFetched ≤ w.totalFetched := by
  intro fuel
  induction fuel with
  | zero =>
    intro stored dateTo
    constructor
    · simp [crawlVideosGo]
    · intro w hw
      simp [crawlVideosGo] at hw
  | succ fuel ih =>
    intro stored dateTo
    by_cases hpast : cutoff < dateTo
    · rcases hr : remote (max (dateTo - (windowDays : Int) * msPerDay) cutoff) dateTo with
        msg | vids
      · have hstep : crawlVideosGo remote windowDays now cutoff (fuel + 1) stored dateTo =
            ⟨.errored, markErrorState stored msg, [markErrorState stored msg]⟩ := by
          simp only [crawlVideosGo, if_pos hpast, hr]
        rw [hstep]
        constructor
        · simp
        · intro w hw
          simp at hw
          subst hw
          simp [markErrorState]
      · have hstep : crawlVideosGo remote windowDays now cutoff (fuel + 1) stored dateTo =
            (let s1 := applyVideosWindow stored vids
              (max (dateTo - (windowDays : Int) * msPerDay) cutoff) now
             let r := crawlVideosGo remote windowDays now cutoff fuel s1
              (max (dateTo - (windowDays : Int) * msPerDay) cutoff)
             ⟨r.outcome, r.finalState, s1 :: r.writes⟩) := by
          simp only [crawlVideosGo, if_pos hpast, hr]
        have ihc := ih (applyVideosWindow stored vids
          (max (dateTo - (windowDays : Int) * msPerDay) cutoff) now)
          (max (dateTo - (windowDays : Int) * msPerDay) cutoff)
        rw [hstep]
        dsimp only
        constructor
        · refine List.chain'_cons'.mpr ⟨?_, ihc.1⟩
          intro y hy
          exact ihc.2 y (List.mem_of_mem_head? hy)
        · intro w hw
          rcases List.mem_cons.mp hw with rfl | hw
          · simp [applyVideosWindow]
          · exact le_trans (by simp [applyVideosWindow]) (ihc.2 w hw)
    · have hstep : crawlVideosGo remote windowDays now cutoff (fuel + 1) stored dateTo =
          ⟨.completed, markCompletedState stored now, [markCompletedState stored now]⟩ := by
        simp only [crawlVideosGo, if_neg hpast]
      rw [hstep]
      constructor
      · simp
      · intro w hw
        simp at hw
        subst hw
        simp [markCompletedState]

/-- Helper: prepending the videos loop's entry row keeps the write trace
monotone. -/
theorem chain_cons_videosGo (remote : Int → Int → Except String (List CloudVideo))
    (windowDays : Nat) (now cutoff : Int) (fuel : Nat) (s0 : CrawlState) (dateTo : Int) :
    List.Chain' (fun a b => a.totalFetched ≤ b.totalFetched)
      (s0 :: (crawlVideosGo remote windowDays now cutoff fuel s0 dateTo).writes) := by
  refine List.chain'_cons'.mpr
    ⟨?_, (crawlVideosGo_writes_mono remote windowDays now cutoff fuel s0 dateTo).1⟩
  intro y hy
  exact (crawlVideosGo_writes_mono remote windowDays now cutoff fuel s0 dateTo).2 y
    (List.mem_of_mem_head? hy)

/-- Short videos-phase run used by the monotonicity witness. -/
def runC10w : VideosRunResult :=
  crawlVideosForDevice none "cam1" (fun _ _ => Except.ok [mkVideoW]) 90 0 5

/-- C2 amended: every ledger write issued by the three backfill phase loops
(events, device_history, videos) and by an incremental-refresh step keeps
`totalFetched` non-decreasing, and a run whose prior row was `paused` or
`running` (or absent) also never drops below the prior row's count; the single
decreasing write is the `makeInitialState` re-initialisation of an
`idle`/`error` row, which restarts the count at zero. -/
theorem crawler_totalFetched_monotone_amended
    (prior : Option CrawlState) (deviceId locationId : String) (pageSize maxAgeMs : Nat)
    (now : Int) (script : List (Except String CloudEventQueryResult))
    (cache : Option (List CloudEventRow)) (st : CrawlState) (res : CloudEventQueryResult)
    (evs : List RawItem) (store : List (String × String))
    (priorDh : Option CrawlState) (scriptDh : List (Except String (List RawItem)))
    (storeDh : List (String × String))
    (priorV : Option CrawlState) (remoteV : Int → Int → Except String (List CloudVideo))
    (windowDaysV fuelV : Nat) :
    List.Chain' (fun a b => a.totalFetched ≤ b.totalFetched)
        ((match prior with
          | some p =>
            if p.status = CrawlStatus.paused ∨ p.status = CrawlStatus.running then [p] else []
          | none => []) ++
          (crawlEventsForDevice prior deviceId pageSize maxAgeMs now script cache).writes)
      ∧ List.Chain' (fun a b => a.totalFetched ≤ b.totalFetched)
        ((match priorDh with
          | some p =>
            if p.status = CrawlStatus.paused ∨ p.status = CrawlStatus.running then [p] else []
          | none => []) ++
          (crawlDeviceHistoryForLocation priorDh locationId pageSize now scriptDh
            storeDh).writes)
      ∧ List.Chain' (fun a b => a.totalFetched ≤ b.totalFetched)
        ((match priorV with
          | some p =>
            if p.status = CrawlStatus.paused ∨ p.status = CrawlStatus.running then [p] else []
          | none => []) ++
          (crawlVideosForDevice priorV deviceId remoteV windowDaysV now fuelV).writes)
      ∧ (∀ w, incrementalEventsStep (some st) res now = some w →
          st.totalFetched ≤ w.totalFetched)
      ∧ (∀ w store2,
          incrementalHistoryStep (some st) locationId evs store now = (some w, store2) →
          st.totalFetched ≤ w.totalFetched) := by
  refine ⟨?_, ?_, ?_, ?_, ?_⟩
  · rcases prior with _ | p
    · simp only [crawlEventsForDevice, List.nil_append]
      exact chain_cons_go deviceId pageSize maxAgeMs now script cache _ _
    · rcases hps : p.status
      case completed =>
        simp [crawlEventsForDevice, hps]
      case idle =>
        simp only [crawlEventsForDevice, hps]
        exact chain_cons_go deviceId pageSize maxAgeMs now script cache _ _
      case error =>
        simp only [crawlEventsForDevice, hps]
        exact chain_cons_go deviceId pageSize maxAgeMs now script cache _ _
      case paused =>
        simp only [crawlEventsForDevice, hps]
        refine List.chain'_cons'.mpr ⟨?_, chain_cons_go deviceId pageSize maxAgeMs now
          script cache { p with status := .running } _⟩
        intro y hy
        have hyy : { p with status := CrawlStatus.running } = y := by
          simpa using hy
        rw [← hyy]
      case running =>
        simp only [crawlEventsForDevice, hps]
        refine List.chain'_cons'.mpr
          ⟨?_, (crawlEventsGo_writes_mono deviceId pageSize maxAgeMs now script cache p _).1⟩
        intro y hy
        exact (crawlEventsGo_writes_mono deviceId pageSize maxAgeMs now script cache p _).2 y
          (List.mem_of_mem_head? hy)
  · rcases priorDh with _ | p
    · simp only [crawlDeviceHistoryForLocation, List.nil_append]
      exact chain_cons_dhGo locationId pageSize now scriptDh storeDh _ _
    · rcases hps : p.status
      case completed =>
        simp [crawlDeviceHistoryForLocation, hps]
      case idle =>
        simp only [crawlDeviceHistoryForLocation, hps]
        exact chain_cons_dhGo locationId pageSize now scriptDh storeDh _ _
      case error =>
        simp only [crawlDeviceHistoryForLocation, hps]
        exact chain_cons_dhGo locationId pageSize now scriptDh storeDh _ _
      case paused =>
        simp only [crawlDeviceHistoryForLocation, hps]
        refine List.chain'_cons'.mpr ⟨?_, chain_cons_dhGo locationId pageSize now scriptDh
          storeDh { p with status := .running } _⟩
        intro y hy
        have hyy : { p with status := CrawlStatus.running } = y := by
          simpa using hy
        rw [← hyy]
      case running =>
        simp only [crawlDeviceHistoryForLocation, hps]
        refine List.chain'_cons'.mpr
          ⟨?_, (crawlDhGo_writes_mono locationId pageSize now scriptDh storeDh p _).1⟩
        intro y hy
        exact (crawlDhGo_writes_mono locationId pageSize now scriptDh storeDh p _).2 y
          (List.mem_of_mem_head? hy)
  · rcases priorV with _ | p
    · simp only [crawlVideosForDevice, List.nil_append]
      exact chain_cons_videosGo remoteV windowDaysV now _ fuelV _ _
    · rcases hps : p.status
      case completed =>
        simp [crawlVideosForDevice, hps]
      case idle =>
        simp only [crawlVideosForDevice, hps]
        exact chain_cons_videosGo remoteV windowDaysV now _ fuelV _ _
      case error =>
        simp only [crawlVideosForDevice, hps]
        exact chain_cons_videosGo remoteV windowDaysV now _ fuelV _ _
      case paused =>
        simp only [crawlVideosForDevice, hps]
        refine List.chain'_cons'.mpr ⟨?_, chain_cons_videosGo remoteV windowDaysV now _ fuelV
          { p with status := .running } _⟩
        intro y hy
        have hyy : { p with status := CrawlStatus.running } = y := by
          simpa using hy
        rw [← hyy]
      case running =>
        simp only [crawlVideosForDevice, hps]
        refine List.chain'_cons'.mpr
          ⟨?_, (crawlVideosGo_writes_mono remoteV windowDaysV now _ fuelV p _).1⟩
        intro y hy
        exact (crawlVideosGo_writes_mono remoteV windowDaysV now _ fuelV p _).2 y
          (List.mem_of_mem_head? hy)
  · intro w h
    simp only [incrementalEventsStep] at h
    split at h
    · injection h with h
      rw [← h]
      simp
    · exact absurd h (by simp)
  · intro w store2 h
    simp only [incrementalHistoryStep] at h
    split at h
    · split at h
      · rw [Prod.mk.injEq] at h
        injection h.1 with h1
        rw [← h1]
        simp
      · rw [Prod.mk.injEq] at h
        exact absurd h.1 (by simp)
    · rw [Prod.mk.injEq] at h
      exact absurd h.1 (by simp)

/-- Witness for the amended monotonicity theorem at concrete runs of all three
backfill loops and both incremental steps. -/
theorem crawler_totalFetched_monotone_amended_witness :
    List.Chain' (fun a b => a.totalFetched ≤ b.totalFetched) runC3.writes
      ∧ List.Chain' (fun a b => a.totalFetched ≤ b.totalFetched) runC4w.writes
      ∧ List.Chain' (fun a b => a.totalFetched ≤ b.totalFetched) runC10w.writes
      ∧ priorPausedRow.totalFetched ≤ wIncEv.totalFetched
      ∧ priorPausedRow.totalFetched ≤ wIncDh.totalFetched := by
  have T1 := crawler_totalFetched_monotone_amended none "cam1" "loc1" 50 1800000 1000 scriptC3
    (some []) priorPausedRow resIncW [⟨"bodyA", none⟩] [] none [] []
    none (fun _ _ => Except.ok []) 1 0
  have T2 := crawler_totalFetched_monotone_amended none "loc1" "loc1" 2 1800000 1000 []
    none priorPausedRow resIncW [] [] none (pagesC4w.map Except.ok) []
    none (fun _ _ => Except.ok []) 1 0
  have T3 := crawler_totalFetched_monotone_amended none "cam1" "loc1" 50 1800000 0 []
    none priorPausedRow resIncW [] [] none [] []
    none (fun _ _ => Except.ok [mkVideoW]) 90 5
  exact ⟨T1.1, T2.2.1, T3.2.2.1, T1.2.2.2.1 wIncEv (by decide),
    T1.2.2.2.2 wIncDh [("loc1", "bodyA")] (by decide)⟩

end RingCrawl
